import Mathlib

set_option autoImplicit false

/-!
Verification development for the Vertical Pod Autoscaler sources of this
repository.  The Go code is embedded shallowly: resource quantities are
integers (milli-units), durations are integers (nanoseconds), Go maps with
a nil state become `Option` of a lookup function, fallible code returns
`Except` or `Option`, and floating point arithmetic on `resourceDiff` is
modelled over the rationals.
-/

namespace VPA

/-- Kubernetes resource names.  The sources only ever merge and compare the
cpu and memory entries; `storage` stands for any further resource name a
list may carry. -/
inductive ResourceName
  | cpu
  | memory
  | storage
deriving DecidableEq, Repr

/-- The fixed enumeration of representable resource names, used to iterate
over the entries of a resource list (Go iterates map keys). -/
def allResources : List ResourceName := [.cpu, .memory, .storage]

/-- Rendering used when a resource name appears inside a JSON-patch path or
an annotation string. -/
def ResourceName.str : ResourceName → String
  | .cpu => "cpu"
  | .memory => "memory"
  | .storage => "storage"

/-- A quantity, in milli-units, as produced by `Quantity.MilliValue`. -/
abbrev Quantity := Int

/-- Go `v1.ResourceList`: a map from resource name to quantity.  A nil map
is represented by `none` at the use sites that distinguish nil. -/
def ResourceList := ResourceName → Option Quantity

/-- Pointwise update of a resource list, modelling Go map assignment. -/
def ResourceList.set (m : ResourceList) (r : ResourceName) (v : Quantity) : ResourceList :=
  fun x => if x = r then some v else m x

/-- Lookup in a possibly nil resource list (reading a nil Go map yields
absence). -/
def lookupRL (m : Option ResourceList) (r : ResourceName) : Option Quantity :=
  match m with
  | none => none
  | some f => f r

/-- The entries of a resource list, in the fixed iteration order of
`allResources`; `List.length` of this models Go `len` on the map. -/
def entriesRL (m : ResourceList) : List (ResourceName × Quantity) :=
  allResources.filterMap fun r => (m r).map fun v => (r, v)

@[simp] theorem ResourceList.set_same (m : ResourceList) (r : ResourceName) (v : Quantity) :
    (m.set r v) r = some v := by
  simp [ResourceList.set]

@[simp] theorem ResourceList.set_other (m : ResourceList) (r x : ResourceName) (v : Quantity)
    (h : x ≠ r) : (m.set r v) x = m x := by
  simp [ResourceList.set, h]

/-- Last termination state of a container (`Terminated` data relevant to
the updater). -/
structure TerminatedState where
  reason : String
  startedAt : Int
  finishedAt : Int
deriving DecidableEq, Repr

/-- Container status: only the last termination state is inspected. -/
structure ContainerStatus where
  lastTerminationState : Option TerminatedState
deriving DecidableEq, Repr

/-- A container spec: name plus declared requests and limits (each possibly
a nil map). -/
structure Container where
  name : String
  requests : Option ResourceList
  limits : Option ResourceList

instance : Inhabited Container := ⟨⟨"", none, none⟩⟩

/-- A pod, with the fields the embedded functions read. -/
structure Pod where
  name : String
  generateName : String
  nspace : String
  containers : List Container
  containerStatuses : List ContainerStatus
  startTime : Option Int
  annotations : Option (List (String × String))

instance : Inhabited Pod := ⟨⟨"", "", "", [], [], none, none⟩⟩

/-- `vpa_types.RecommendedContainerResources`. -/
structure RecommendedContainerResources where
  containerName : String
  target : ResourceList
  lowerBound : ResourceList
  upperBound : ResourceList
  uncappedTarget : ResourceList

/-- `vpa_types.RecommendedPodResources`. -/
structure RecommendedPodResources where
  containerRecommendations : List RecommendedContainerResources

/-- Modelled from the spec: `vpa_api_util.GetRecommendationForContainer` is
not part of the repository sources; per the spec each container is matched
with the recommendation entry bearing its name. -/
def GetRecommendationForContainer (containerName : String)
    (recommendation : RecommendedPodResources) : Option RecommendedContainerResources :=
  recommendation.containerRecommendations.find? fun cr => decide (cr.containerName = containerName)

/-! ## Update priority calculator
Embedding of `pkg/updater/priority/update_priority_calculator.go`. -/

/-- `defaultUpdateThreshold`: ignore change priority smaller than 10 percent. -/
def defaultUpdateThreshold : ℚ := 10 / 100

/-- `podLifetimeUpdateThreshold`: 12 hours, in nanoseconds. -/
def podLifetimeUpdateThreshold : Int := 12 * 3600 * 1000000000

/-- Default value of the `evict-after-oom-threshold` flag: 10 minutes, in
nanoseconds. -/
def evictAfterOOMThreshold : Int := 10 * 60 * 1000000000

/-- `UpdateConfig`. -/
structure UpdateConfig where
  MinChangePriority : ℚ

/-- `podPriority`. -/
structure PodPriority where
  pod : Pod
  outsideRecommendedRange : Bool
  scaleUp : Bool
  resourceDiff : ℚ
  recommendation : RecommendedPodResources

/-- The mutable state of an `UpdatePriorityCalculator` that the embedded
operations touch. -/
structure CalcState where
  config : UpdateConfig
  pods : List PodPriority

/-- Accumulator of the container loop inside `getUpdatePriority`. -/
structure PrioAcc where
  outsideRecommendedRange : Bool
  scaleUp : Bool
  totalRequest : ResourceName → Int
  totalRecommended : ResourceName → Option Int

/-- Update of the per-resource total of requests (Go map read of a missing
key yields 0, so the totals are a total function). -/
def bumpTotal (f : ResourceName → Int) (r : ResourceName) (v : Int) : ResourceName → Int :=
  fun x => if x = r then v else f x

/-- Update of the per-resource total of recommendations (entry created on
first addition, as for a Go map). -/
def bumpRecommended (f : ResourceName → Option Int) (r : ResourceName) (v : Int) :
    ResourceName → Option Int :=
  fun x => if x = r then some v else f x

/-- Body of the inner resource loop of `getUpdatePriority` for one resource
name of one container. -/
def processResource (podContainer : Container)
    (recommendedRequest : RecommendedContainerResources) (acc : PrioAcc)
    (resourceName : ResourceName) : PrioAcc :=
  match recommendedRequest.target resourceName with
  | none => acc
  | some recommended =>
    let newRecommended := (acc.totalRecommended resourceName).getD 0 + recommended
    let acc := { acc with totalRecommended := bumpRecommended acc.totalRecommended resourceName newRecommended }
    match lookupRL podContainer.requests resourceName with
    | some request =>
      let belowLower : Bool :=
        match recommendedRequest.lowerBound resourceName with
        | some lowerBound => decide (request < lowerBound)
        | none => false
      let aboveUpper : Bool :=
        match recommendedRequest.upperBound resourceName with
        | some upperBound => decide (request > upperBound)
        | none => false
      { acc with
        totalRequest := bumpTotal acc.totalRequest resourceName (acc.totalRequest resourceName + request),
        scaleUp := acc.scaleUp || decide (recommended > request),
        outsideRecommendedRange := acc.outsideRecommendedRange || (belowLower || aboveUpper) }
    | none =>
      -- a container with no request for a recommended resource is treated
      -- as scaling up from a zero request and as outside the range
      { acc with scaleUp := true, outsideRecommendedRange := true }

/-- Body of the container loop of `getUpdatePriority`. -/
def processContainer (recommendation : RecommendedPodResources) (acc : PrioAcc)
    (podContainer : Container) : PrioAcc :=
  match GetRecommendationForContainer podContainer.name recommendation with
  | none => acc
  | some recommendedRequest =>
    allResources.foldl (processResource podContainer recommendedRequest) acc

/-- Initial accumulator of `getUpdatePriority`. -/
def initPrioAcc : PrioAcc :=
  { outsideRecommendedRange := false, scaleUp := false
    totalRequest := fun _ => 0, totalRecommended := fun _ => none }

/-- The `resourceDiff` summation at the end of `getUpdatePriority`: for
every resource with a recorded recommendation total, the requests total is
clamped below by 1 and the relative difference is accumulated. -/
def resourceDiffOf (acc : PrioAcc) : ℚ :=
  allResources.foldl
    (fun d resource =>
      match acc.totalRecommended resource with
      | none => d
      | some totalRecommended =>
        let totalRequest : ℚ := max ((acc.totalRequest resource : Int) : ℚ) 1
        d + |totalRequest - (totalRecommended : ℚ)| / totalRequest)
    0

/-- `UpdatePriorityCalculator.getUpdatePriority`. -/
def getUpdatePriority (pod : Pod) (recommendation : RecommendedPodResources) : PodPriority :=
  let acc := pod.containers.foldl (processContainer recommendation) initPrioAcc
  { pod := pod
    outsideRecommendedRange := acc.outsideRecommendedRange
    scaleUp := acc.scaleUp
    resourceDiff := resourceDiffOf acc
    recommendation := recommendation }

/-- The quick-OOM detection block of `AddPod`: a single container status
whose last termination is an OOM kill that happened in less than
`evictAfterOOMThreshold` since start. -/
def quickOOMCheck (pod : Pod) : Bool :=
  match pod.containerStatuses with
  | [cs] =>
    match cs.lastTerminationState with
    | some terminated =>
      decide (terminated.reason = "OOMKilled") &&
        decide (terminated.finishedAt - terminated.startedAt < evictAfterOOMThreshold)
    | none => false
  | _ => false

/-- `UpdatePriorityCalculator.AddPod`.  The recommendation processor is an
injected interface; it is passed as the function `applyRecommendation`,
returning `none` when processing fails. -/
def AddPod (applyRecommendation : Pod → Option RecommendedPodResources)
    (calcState : CalcState) (pod : Pod) (now : Int) : CalcState :=
  match applyRecommendation pod with
  | none => calcState
  | some processedRecommendation =>
    let updatePriority := getUpdatePriority pod processedRecommendation
    let quickOOM := quickOOMCheck pod
    if !updatePriority.outsideRecommendedRange && !quickOOM then
      match pod.startTime with
      | none => calcState
      | some startTime =>
        if now < startTime + podLifetimeUpdateThreshold then calcState
        else if updatePriority.resourceDiff < calcState.config.MinChangePriority then calcState
        else { calcState with pods := calcState.pods ++ [updatePriority] }
    else { calcState with pods := calcState.pods ++ [updatePriority] }

/-- `byPriority.Less`. -/
def byPriorityLess (a b : PodPriority) : Bool :=
  if a.scaleUp ≠ b.scaleUp then a.scaleUp
  else decide (a.resourceDiff > b.resourceDiff)

/-- The ordering in which `sort.Sort` leaves the slice: `a` may stay before
`b` precisely when `b` need not precede `a`. -/
def lePriority (a b : PodPriority) : Bool := !byPriorityLess b a

/-- The sorted list of entries that the admission filter keeps, in order.
`admission = none` models a nil `PodEvictionAdmission`. -/
def eligiblePriorities (calcState : CalcState)
    (admission : Option (Pod → RecommendedPodResources → Bool)) : List PodPriority :=
  (calcState.pods.mergeSort lePriority).filter fun podPrio =>
    match admission with
    | none => true
    | some admit1 => admit1 podPrio.pod podPrio.recommendation

/-- `UpdatePriorityCalculator.GetSortedPods`. -/
def GetSortedPods (calcState : CalcState)
    (admission : Option (Pod → RecommendedPodResources → Bool)) : List Pod :=
  (eligiblePriorities calcState admission).map fun podPrio => podPrio.pod


/-! ## Theorems about the update priority calculator -/

/-- The ordering property claimed for the sorted pod list: scale-up entries
precede scale-down entries, and entries of the same category appear in
non-increasing order of `resourceDiff`. -/
def prioOrdered (a b : PodPriority) : Prop :=
  (b.scaleUp = true → a.scaleUp = true) ∧
  (a.scaleUp = b.scaleUp → b.resourceDiff ≤ a.resourceDiff)

theorem lePriority_trans : ∀ (a b c : PodPriority),
    lePriority a b = true → lePriority b c = true → lePriority a c = true := by
  intro a b c hab hbc
  cases ha : a.scaleUp <;> cases hb : b.scaleUp <;> cases hc : c.scaleUp <;>
    simp_all [lePriority, byPriorityLess] <;> linarith

theorem lePriority_total : ∀ (a b : PodPriority),
    (lePriority a b || lePriority b a) = true := by
  intro a b
  cases ha : a.scaleUp <;> cases hb : b.scaleUp <;>
    simp_all [lePriority, byPriorityLess] <;>
    rcases le_total a.resourceDiff b.resourceDiff with h | h <;> simp [h]

theorem lePriority_imp_prioOrdered (a b : PodPriority)
    (h : lePriority a b = true) : prioOrdered a b := by
  constructor <;> intro hs <;>
    cases ha : a.scaleUp <;> cases hb : b.scaleUp <;>
    simp_all [lePriority, byPriorityLess]

/-- Claim C1: for every set of pods accepted by an
`UpdatePriorityCalculator`, the list returned by `GetSortedPods` is ordered
so that every pod with `scaleUp = true` precedes every pod with
`scaleUp = false`, and among pods with the same `scaleUp` value the pods
appear in non-increasing order of `resourceDiff`. -/
theorem c1_getSortedPods_priority_order (calcState : CalcState)
    (admission : Option (Pod → RecommendedPodResources → Bool)) :
    List.Pairwise prioOrdered (eligiblePriorities calcState admission) ∧
    GetSortedPods calcState admission =
      (eligiblePriorities calcState admission).map (fun podPrio => podPrio.pod) := by
  refine ⟨?_, rfl⟩
  have hs := List.sorted_mergeSort lePriority_trans lePriority_total calcState.pods
  have hp : List.Pairwise (fun a b => lePriority a b = true)
      (eligiblePriorities calcState admission) :=
    List.Pairwise.sublist (List.filter_sublist _) hs
  exact hp.imp (fun h => lePriority_imp_prioOrdered _ _ h)

theorem quickOOMCheck_iff (pod : Pod) :
    quickOOMCheck pod = true ↔
      ∃ cs, pod.containerStatuses = [cs] ∧
        ∃ t, cs.lastTerminationState = some t ∧ t.reason = "OOMKilled" ∧
          t.finishedAt - t.startedAt < evictAfterOOMThreshold := by
  unfold quickOOMCheck
  match h : pod.containerStatuses with
  | [] => simp
  | [cs] =>
    match ht : cs.lastTerminationState with
    | some t => simp [ht]
    | none => simp [ht]
  | cs₁ :: cs₂ :: rest => simp

/-- Claim C2: for every pod whose recommendation the processor applies
without error, `AddPod` appends the pod to the candidate list iff
`outsideRecommendedRange` is true, or the pod has exactly one container
status whose last termination is an OOM kill with terminated lifetime
below `evictAfterOOMThreshold`, or the pod has a recorded start time at
least `podLifetimeUpdateThreshold` before `now` and `resourceDiff` is at
least `MinChangePriority`; in every other case the state is unchanged. -/
theorem c2_addPod_eviction_eligibility
    (applyRecommendation : Pod → Option RecommendedPodResources)
    (calcState : CalcState) (pod : Pod) (now : Int)
    (processedRecommendation : RecommendedPodResources)
    (h : applyRecommendation pod = some processedRecommendation) :
    ((AddPod applyRecommendation calcState pod now).pods =
        calcState.pods ++ [getUpdatePriority pod processedRecommendation] ↔
      ((getUpdatePriority pod processedRecommendation).outsideRecommendedRange = true ∨
       (∃ cs, pod.containerStatuses = [cs] ∧
         ∃ t, cs.lastTerminationState = some t ∧ t.reason = "OOMKilled" ∧
           t.finishedAt - t.startedAt < evictAfterOOMThreshold) ∨
       (∃ startTime, pod.startTime = some startTime ∧
         startTime + podLifetimeUpdateThreshold ≤ now ∧
         calcState.config.MinChangePriority ≤
           (getUpdatePriority pod processedRecommendation).resourceDiff))) ∧
    ((AddPod applyRecommendation calcState pod now).pods =
        calcState.pods ++ [getUpdatePriority pod processedRecommendation] ∨
      (AddPod applyRecommendation calcState pod now) = calcState) := by
  have hne : calcState.pods ≠ calcState.pods ++ [getUpdatePriority pod processedRecommendation] := by
    simp
  unfold AddPod
  rw [h]
  simp only
  rw [← quickOOMCheck_iff]
  by_cases hout : (getUpdatePriority pod processedRecommendation).outsideRecommendedRange = true
  · simp [hout, hne]
  · by_cases hq : quickOOMCheck pod = true
    · simp [hq, Bool.not_eq_true] at *
    · simp [Bool.not_eq_true] at hout hq
      simp only [hout, hq]
      match hst : pod.startTime with
      | none => simp [hst, hne.symm, hout, hq]
      | some startTime =>
        by_cases hlife : now < startTime + podLifetimeUpdateThreshold
        · simp [hlife, hne.symm, hout, hq]
        · by_cases hdiff : (getUpdatePriority pod processedRecommendation).resourceDiff <
              calcState.config.MinChangePriority
          · simp [hlife, hdiff, hne.symm, hout, hq]
          · simp [hlife, hdiff, hout, hq]
            exact ⟨by omega, by linarith⟩

/-- Convenience constructor of a resource list from an association list. -/
def rlOf : List (ResourceName × Quantity) → ResourceList
  | [] => fun _ => none
  | (a, v) :: rest => fun r => if r = a then some v else rlOf rest r

/-- Demonstration pod: one container requesting 100 millicores. -/
def demoPod : Pod :=
  { name := "p", generateName := "", nspace := "default"
    containers := [⟨"c", some (rlOf [(.cpu, 100)]), none⟩]
    containerStatuses := [], startTime := some 0, annotations := none }

/-- Demonstration recommendation: 300 millicores target for container c. -/
def demoRec : RecommendedPodResources :=
  ⟨[{ containerName := "c", target := rlOf [(.cpu, 300)], lowerBound := rlOf []
      upperBound := rlOf [], uncappedTarget := rlOf [(.cpu, 300)] }]⟩

theorem c2_addPod_eviction_eligibility_witness :
    (AddPod (fun _ => some demoRec) { config := ⟨defaultUpdateThreshold⟩, pods := [] }
        demoPod podLifetimeUpdateThreshold).pods =
      [] ++ [getUpdatePriority demoPod demoRec] := by
  have hdiff : (getUpdatePriority demoPod demoRec).resourceDiff = 2 := by
    simp [getUpdatePriority, resourceDiffOf, processContainer, processResource, initPrioAcc,
      allResources, GetRecommendationForContainer, demoPod, demoRec, rlOf, lookupRL,
      bumpRecommended, bumpTotal, List.find?]
    norm_num
  have h := c2_addPod_eviction_eligibility (fun _ => some demoRec)
    { config := ⟨defaultUpdateThreshold⟩, pods := [] } demoPod podLifetimeUpdateThreshold
    demoRec rfl
  refine h.1.mpr (Or.inr (Or.inr ⟨0, rfl, by simp, ?_⟩))
  rw [hdiff]
  norm_num [defaultUpdateThreshold]

/-! ## Claim C3: the resourceDiff formula -/

/-- The `resourceDiff` formula exactly as the claim words it: the sum,
across all containers and resources, of the per-container relative
difference, with a missing request treated as 0. -/
def claimResourceDiff (pod : Pod) (recommendation : RecommendedPodResources) : ℚ :=
  (pod.containers.map fun c =>
    match GetRecommendationForContainer c.name recommendation with
    | none => 0
    | some rcr =>
      (allResources.map fun r =>
        match rcr.target r with
        | none => 0
        | some recommended =>
          let request : ℚ := (((lookupRL c.requests r).getD 0 : Int) : ℚ)
          |request - (recommended : ℚ)| / max request 1).sum).sum

/-- Per-resource recommended milli-values contributed by a list of
containers: one entry per container that has a recommendation with a
target for the resource. -/
def recommendedContributions (recommendation : RecommendedPodResources)
    (l : List Container) (r : ResourceName) : List Int :=
  l.filterMap fun c =>
    (GetRecommendationForContainer c.name recommendation).bind fun rcr => rcr.target r

/-- Per-resource requested milli-values: a container contributes its
request only when it also has a recommendation target for the resource. -/
def requestContributions (recommendation : RecommendedPodResources)
    (l : List Container) (r : ResourceName) : List Int :=
  l.filterMap fun c =>
    (GetRecommendationForContainer c.name recommendation).bind fun rcr =>
      (rcr.target r).bind fun _ => lookupRL c.requests r

/-- Folding successive additions into a Go map entry. -/
def addContrib (o : Option Int) (l : List Int) : Option Int :=
  l.foldl (fun o v => some (o.getD 0 + v)) o

theorem addContrib_some (a : Int) (l : List Int) : addContrib (some a) l = some (a + l.sum) := by
  induction l generalizing a with
  | nil => simp [addContrib]
  | cons x xs ih =>
    show addContrib (some (a + x)) xs = _
    rw [ih]
    simp [add_assoc]

theorem addContrib_none (l : List Int) :
    addContrib none l = if l = [] then none else some l.sum := by
  cases l with
  | nil => simp [addContrib]
  | cons x xs =>
    show addContrib (some (0 + x)) xs = _
    rw [addContrib_some]
    simp [add_assoc]

theorem processResource_totalRecommended_at (c : Container)
    (rcr : RecommendedContainerResources) (acc : PrioAcc) (r' r : ResourceName) :
    (processResource c rcr acc r').totalRecommended r =
      if r' = r then
        match rcr.target r with
        | none => acc.totalRecommended r
        | some v => some ((acc.totalRecommended r).getD 0 + v)
      else acc.totalRecommended r := by
  unfold processResource
  by_cases h : r' = r
  · subst h
    cases ht : rcr.target r' <;> simp only [ht]
    · simp
    · cases hq : lookupRL c.requests r' <;> simp [hq, bumpRecommended]
  · cases ht : rcr.target r' <;> simp only [ht]
    · simp [h]
    · cases hq : lookupRL c.requests r' <;>
        simp [hq, bumpRecommended, h] <;>
        exact fun hh => absurd hh.symm h

theorem processResource_totalRequest_at (c : Container)
    (rcr : RecommendedContainerResources) (acc : PrioAcc) (r' r : ResourceName) :
    (processResource c rcr acc r').totalRequest r =
      acc.totalRequest r +
        (if r' = r then ((rcr.target r).bind fun _ => lookupRL c.requests r).getD 0 else 0) := by
  unfold processResource
  by_cases h : r' = r
  · subst h
    cases ht : rcr.target r' <;> simp only [ht]
    · simp
    · cases hq : lookupRL c.requests r' <;> simp [hq, bumpTotal]
  · cases ht : rcr.target r' <;> simp only [ht]
    · simp [h]
    · cases hq : lookupRL c.requests r' <;>
        simp [hq, bumpTotal, h] <;>
        exact fun hh => absurd hh.symm h

theorem processContainer_totalRecommended_at (recommendation : RecommendedPodResources)
    (acc : PrioAcc) (c : Container) (r : ResourceName) :
    (processContainer recommendation acc c).totalRecommended r =
      match (GetRecommendationForContainer c.name recommendation).bind (fun rcr => rcr.target r) with
      | none => acc.totalRecommended r
      | some v => some ((acc.totalRecommended r).getD 0 + v) := by
  unfold processContainer
  cases hf : GetRecommendationForContainer c.name recommendation with
  | none => simp [hf]
  | some rcr =>
    simp only [hf, Option.some_bind]
    show (processResource c rcr (processResource c rcr (processResource c rcr acc .cpu) .memory)
        .storage).totalRecommended r = _
    rw [processResource_totalRecommended_at, processResource_totalRecommended_at,
      processResource_totalRecommended_at]
    cases r <;> simp

theorem processContainer_totalRequest_at (recommendation : RecommendedPodResources)
    (acc : PrioAcc) (c : Container) (r : ResourceName) :
    (processContainer recommendation acc c).totalRequest r =
      acc.totalRequest r +
        ((GetRecommendationForContainer c.name recommendation).bind fun rcr =>
          (rcr.target r).bind fun _ => lookupRL c.requests r).getD 0 := by
  unfold processContainer
  cases hf : GetRecommendationForContainer c.name recommendation with
  | none => simp [hf]
  | some rcr =>
    simp only [hf, Option.some_bind]
    show (processResource c rcr (processResource c rcr (processResource c rcr acc .cpu) .memory)
        .storage).totalRequest r = _
    rw [processResource_totalRequest_at, processResource_totalRequest_at,
      processResource_totalRequest_at]
    cases r <;> simp

theorem foldl_totalRecommended (recommendation : RecommendedPodResources)
    (l : List Container) (acc : PrioAcc) (r : ResourceName) :
    ((l.foldl (processContainer recommendation) acc).totalRecommended r) =
      addContrib (acc.totalRecommended r) (recommendedContributions recommendation l r) := by
  induction l generalizing acc with
  | nil => simp [addContrib, recommendedContributions]
  | cons c cs ih =>
    simp only [List.foldl_cons, recommendedContributions, List.filterMap_cons]
    cases h : (GetRecommendationForContainer c.name recommendation).bind fun rcr => rcr.target r with
    | none =>
      rw [ih]
      have hc := processContainer_totalRecommended_at recommendation acc c r
      rw [h] at hc
      rw [hc]
      rfl
    | some v =>
      rw [ih]
      have hc := processContainer_totalRecommended_at recommendation acc c r
      rw [h] at hc
      rw [hc]
      rfl

theorem foldl_totalRequest (recommendation : RecommendedPodResources)
    (l : List Container) (acc : PrioAcc) (r : ResourceName) :
    ((l.foldl (processContainer recommendation) acc).totalRequest r) =
      acc.totalRequest r + (requestContributions recommendation l r).sum := by
  induction l generalizing acc with
  | nil => simp [requestContributions]
  | cons c cs ih =>
    simp only [List.foldl_cons, requestContributions, List.filterMap_cons]
    rw [ih, processContainer_totalRequest_at]
    cases h : (GetRecommendationForContainer c.name recommendation).bind fun rcr =>
        (rcr.target r).bind fun _ => lookupRL c.requests r with
    | none => simp [h, requestContributions]
    | some v => simp [h, requestContributions, add_assoc]

/-- Claim C3, amended: `resourceDiff` aggregates totals per resource over
all containers first, clamps the total request below by 1, and sums the
relative difference `|max(totalRequest,1) - totalRecommended| / max(totalRequest,1)`
over the resources that received any recommendation. -/
theorem c3_resourceDiff_total_per_resource (pod : Pod)
    (recommendation : RecommendedPodResources) :
    (getUpdatePriority pod recommendation).resourceDiff =
      (allResources.map fun r =>
        if recommendedContributions recommendation pod.containers r = [] then 0
        else
          let totalRequest : ℚ :=
            max (((requestContributions recommendation pod.containers r).sum : Int) : ℚ) 1
          |totalRequest -
              (((recommendedContributions recommendation pod.containers r).sum : Int) : ℚ)| /
            totalRequest).sum := by
  have hdef : (getUpdatePriority pod recommendation).resourceDiff =
      resourceDiffOf (pod.containers.foldl (processContainer recommendation) initPrioAcc) := rfl
  rw [hdef]
  have hrec : ∀ r, (pod.containers.foldl (processContainer recommendation) initPrioAcc).totalRecommended r =
      if recommendedContributions recommendation pod.containers r = [] then none
      else some (recommendedContributions recommendation pod.containers r).sum := by
    intro r
    rw [foldl_totalRecommended]
    simp [initPrioAcc, addContrib_none]
  have hreq : ∀ r, (pod.containers.foldl (processContainer recommendation) initPrioAcc).totalRequest r =
      (requestContributions recommendation pod.containers r).sum := by
    intro r
    rw [foldl_totalRequest]
    simp [initPrioAcc]
  simp only [resourceDiffOf, allResources, List.foldl_cons, List.foldl_nil, List.map_cons,
    List.map_nil, List.sum_cons, List.sum_nil, hrec, hreq]
  by_cases h1 : recommendedContributions recommendation pod.containers .cpu = [] <;>
  by_cases h2 : recommendedContributions recommendation pod.containers .memory = [] <;>
  by_cases h3 : recommendedContributions recommendation pod.containers .storage = [] <;>
  simp [h1, h2, h3] <;> ring

/-- Counterexample pod for claim C3: one container that declares a requests
object with no cpu entry, so the cpu request is missing. -/
def c3pod : Pod :=
  { name := "q", generateName := "", nspace := "default"
    containers := [⟨"c", some (rlOf []), none⟩]
    containerStatuses := [], startTime := none, annotations := none }

/-- Counterexample recommendation for claim C3: cpu target of 5 milli. -/
def c3rec : RecommendedPodResources :=
  ⟨[{ containerName := "c", target := rlOf [(.cpu, 5)], lowerBound := rlOf []
      upperBound := rlOf [], uncappedTarget := rlOf [(.cpu, 5)] }]⟩

/-- Counterexample to claim C3 as stated: with a missing cpu request and a
cpu recommendation of 5 milli, the claimed formula gives
`|0 - 5| / max(0,1) = 5` while the code computes
`|max(0,1) - 5| / max(0,1) = 4`: the numerator also uses the clamped
request total. -/
theorem c3_resourceDiff_counterexample :
    (getUpdatePriority c3pod c3rec).resourceDiff = 4 ∧
    claimResourceDiff c3pod c3rec = 5 ∧
    (getUpdatePriority c3pod c3rec).resourceDiff ≠ claimResourceDiff c3pod c3rec := by
  have h1 : (getUpdatePriority c3pod c3rec).resourceDiff = 4 := by
    simp [getUpdatePriority, resourceDiffOf, processContainer, processResource, initPrioAcc,
      allResources, GetRecommendationForContainer, c3pod, c3rec, rlOf, lookupRL,
      bumpRecommended, bumpTotal, List.find?]
    norm_num
  have h2 : claimResourceDiff c3pod c3rec = 5 := by
    simp [claimResourceDiff, allResources, GetRecommendationForContainer, c3pod, c3rec, rlOf,
      lookupRL, List.find?]
  refine ⟨h1, h2, ?_⟩
  rw [h1, h2]
  norm_num

/-! ## Claim C9: missing request forces eligibility -/

theorem foldl_pred_preserve {α : Type _} {β : Type _} (step : α → β → α) (P : α → Prop)
    (mono : ∀ a x, P a → P (step a x)) :
    ∀ (l : List β) (a : α), P a → P (l.foldl step a) := by
  intro l
  induction l with
  | nil => intro a h; exact h
  | cons x xs ih => intro a h; exact ih (step a x) (mono a x h)

theorem foldl_pred_reach {α : Type _} {β : Type _} (step : α → β → α) (P : α → Prop)
    (mono : ∀ a x, P a → P (step a x)) {x : β} :
    ∀ (l : List β), x ∈ l → (∀ a, P (step a x)) → ∀ a, P (l.foldl step a) := by
  intro l
  induction l with
  | nil => intro h; exact absurd h (List.not_mem_nil x)
  | cons y ys ih =>
    intro hmem hit a
    rcases List.mem_cons.mp hmem with h | h
    · subst h
      exact foldl_pred_preserve step P mono ys (step a x) (hit a)
    · exact ih h hit (step a y)

/-- Both eligibility flags, once set, survive later loop iterations. -/
def bothFlags (acc : PrioAcc) : Prop :=
  acc.outsideRecommendedRange = true ∧ acc.scaleUp = true

theorem processResource_flags_mono (c : Container) (rcr : RecommendedContainerResources) :
    ∀ (acc : PrioAcc) (r : ResourceName), bothFlags acc → bothFlags (processResource c rcr acc r) := by
  intro acc r h
  obtain ⟨h1, h2⟩ := h
  unfold processResource
  cases ht : rcr.target r with
  | none => exact ⟨h1, h2⟩
  | some v =>
    cases hq : lookupRL c.requests r with
    | none => simp [ht, hq, bothFlags]
    | some w => simp [ht, hq, bothFlags, h1, h2]

theorem processResource_flags_hit (c : Container) (rcr : RecommendedContainerResources)
    (r : ResourceName) (q : Quantity) (htarget : rcr.target r = some q)
    (hreq : lookupRL c.requests r = none) :
    ∀ acc, bothFlags (processResource c rcr acc r) := by
  intro acc
  unfold processResource
  simp [htarget, hreq, bothFlags]

theorem processContainer_flags_mono (recommendation : RecommendedPodResources) :
    ∀ (acc : PrioAcc) (c : Container), bothFlags acc → bothFlags (processContainer recommendation acc c) := by
  intro acc c h
  unfold processContainer
  cases hf : GetRecommendationForContainer c.name recommendation with
  | none => exact h
  | some rcr =>
    exact foldl_pred_preserve _ _ (processResource_flags_mono c rcr) allResources acc h

theorem processContainer_flags_hit (recommendation : RecommendedPodResources) (c : Container)
    (rcr : RecommendedContainerResources)
    (hfind : GetRecommendationForContainer c.name recommendation = some rcr)
    (r : ResourceName) (q : Quantity) (htarget : rcr.target r = some q)
    (hreq : lookupRL c.requests r = none) :
    ∀ acc, bothFlags (processContainer recommendation acc c) := by
  intro acc
  unfold processContainer
  rw [hfind]
  refine foldl_pred_reach _ _ (processResource_flags_mono c rcr) allResources ?_
    (processResource_flags_hit c rcr r q htarget hreq) acc
  cases r <;> simp [allResources]

/-- Claim C9: if any container of the pod has a recommended target for a
resource but declares no request for it, `getUpdatePriority` sets both
`scaleUp` and `outsideRecommendedRange`, so `AddPod` appends the pod to the
candidate list whatever `now` and `MinChangePriority` are. -/
theorem c9_missing_request_forces_update (pod : Pod)
    (recommendation : RecommendedPodResources) (c : Container) (hc : c ∈ pod.containers)
    (rcr : RecommendedContainerResources)
    (hfind : GetRecommendationForContainer c.name recommendation = some rcr)
    (r : ResourceName) (q : Quantity) (htarget : rcr.target r = some q)
    (hreq : lookupRL c.requests r = none) :
    (getUpdatePriority pod recommendation).outsideRecommendedRange = true ∧
    (getUpdatePriority pod recommendation).scaleUp = true ∧
    ∀ (applyRecommendation : Pod → Option RecommendedPodResources)
      (calcState : CalcState) (now : Int),
      applyRecommendation pod = some recommendation →
      (AddPod applyRecommendation calcState pod now).pods =
        calcState.pods ++ [getUpdatePriority pod recommendation] := by
  have hP : bothFlags (pod.containers.foldl (processContainer recommendation) initPrioAcc) :=
    foldl_pred_reach _ _ (processContainer_flags_mono recommendation) pod.containers hc
      (fun acc => processContainer_flags_hit recommendation c rcr hfind r q htarget hreq acc)
      initPrioAcc
  have hout : (getUpdatePriority pod recommendation).outsideRecommendedRange = true := hP.1
  have hup : (getUpdatePriority pod recommendation).scaleUp = true := hP.2
  refine ⟨hout, hup, ?_⟩
  intro applyRecommendation calcState now happly
  unfold AddPod
  rw [happly]
  simp [hout]

theorem c9_missing_request_forces_update_witness :
    (getUpdatePriority c3pod c3rec).outsideRecommendedRange = true ∧
    (getUpdatePriority c3pod c3rec).scaleUp = true ∧
    (AddPod (fun _ => some c3rec) { config := ⟨defaultUpdateThreshold⟩, pods := [] }
        c3pod 0).pods = [] ++ [getUpdatePriority c3pod c3rec] := by
  have h := c9_missing_request_forces_update c3pod c3rec ⟨"c", some (rlOf []), none⟩
    (by simp [c3pod])
    { containerName := "c", target := rlOf [(.cpu, 5)], lowerBound := rlOf []
      upperBound := rlOf [], uncappedTarget := rlOf [(.cpu, 5)] }
    (by simp [GetRecommendationForContainer, c3rec, List.find?])
    .cpu 5 (by simp [rlOf]) rfl
  exact ⟨h.1, h.2.1, h.2.2 _ _ 0 rfl⟩

/-! ## Admission controller
Embedding of the admission webhook logic (`AdmissionServer`). -/

/-- The value carried by a JSON-patch operation. -/
inductive PatchValue
  | emptyRequirements
  | emptyResourceList
  | quantity (q : Quantity)
  | text (s : String)
  | annotationsMap (entries : List (String × String))
  | updatePolicyDefault (mode : String)
deriving DecidableEq, Repr

/-- `patchRecord`; the JSON-pointer path is kept as its list of segments. -/
structure PatchRecord where
  op : String
  path : List String
  value : PatchValue
deriving DecidableEq, Repr

/-- `getPatchInitializingEmptyResources`. -/
def getPatchInitializingEmptyResources (i : ℕ) : PatchRecord :=
  { op := "add", path := ["spec", "containers", toString i, "resources"]
    value := .emptyRequirements }

/-- `getPatchInitializingEmptyResourcesSubfield`. -/
def getPatchInitializingEmptyResourcesSubfield (i : ℕ) (kind : String) : PatchRecord :=
  { op := "add", path := ["spec", "containers", toString i, "resources", kind]
    value := .emptyResourceList }

/-- `getAddResourceRequirementValuePatch`. -/
def getAddResourceRequirementValuePatch (i : ℕ) (kind : String) (resource : ResourceName)
    (q : Quantity) : PatchRecord :=
  { op := "add", path := ["spec", "containers", toString i, "resources", kind, resource.str]
    value := .quantity q }

/-- `vpa_api_util.ContainerResources`: the capped recommendation for one
container, as requests and limits resource lists. -/
structure ContainerResources where
  requests : ResourceList
  limits : ResourceList

/-- `appendPatchesAndAnnotations`. -/
def appendPatchesAndAnnotations (patches : List PatchRecord) (annotations : List String)
    (current : Option ResourceList) (containerIndex : ℕ) (resources : ResourceList)
    (fieldName resourceName : String) : List PatchRecord × List String :=
  let patches :=
    if current.isNone && decide (0 < (entriesRL resources).length) then
      patches ++ [getPatchInitializingEmptyResourcesSubfield containerIndex fieldName]
    else patches
  let patches := patches ++ (entriesRL resources).map fun e =>
    getAddResourceRequirementValuePatch containerIndex fieldName e.1 e.2
  let annotations := annotations ++ (entriesRL resources).map fun e =>
    e.1.str ++ " " ++ resourceName
  (patches, annotations)

/-- `AdmissionServer.getContainerPatch`. -/
def getContainerPatch (pod : Pod) (i : ℕ)
    (annotationsPerContainer : String → Option (List String))
    (containerResources : ContainerResources) : List PatchRecord × String :=
  let cont := pod.containers.getD i default
  let patches : List PatchRecord :=
    if cont.limits.isNone && cont.requests.isNone then
      [getPatchInitializingEmptyResources i]
    else []
  let annotations := (annotationsPerContainer cont.name).getD []
  let pa := appendPatchesAndAnnotations patches annotations cont.requests i
    containerResources.requests "requests" "request"
  let pa2 := appendPatchesAndAnnotations pa.1 pa.2 cont.limits i
    containerResources.limits "limits" "limit"
  (pa2.1, "container " ++ toString i ++ ": " ++ String.intercalate ", " pa2.2)

/-- The per-pod part of `AdmissionServer.getPatchesForPodResourceRequest`
after the recommendation provider and pre-processor have succeeded: the
container loop plus the vpaUpdates annotation patch. -/
def podResourcePatches (pod : Pod) (containersResources : List ContainerResources)
    (annotationsPerContainer : String → Option (List String)) (vpaName : String) :
    List PatchRecord :=
  let folded := containersResources.enum.foldl
    (fun (acc : List PatchRecord × List String) p =>
      let pa := getContainerPatch pod p.1 annotationsPerContainer p.2
      (acc.1 ++ pa.1, acc.2 ++ [pa.2]))
    ([], [])
  let patches := folded.1
  let updatesAnnotations := folded.2
  if 0 < updatesAnnotations.length then
    let annotationText := "Pod resources updated by " ++ vpaName ++ ": " ++
      String.intercalate "; " updatesAnnotations
    match pod.annotations with
    | none =>
      patches ++ [{ op := "add", path := ["metadata", "annotations"]
                    value := .annotationsMap [("vpaUpdates", annotationText)] }]
    | some _ =>
      patches ++ [{ op := "add", path := ["metadata", "annotations", "vpaUpdates"]
                    value := .text annotationText }]
  else patches

/-- A workload target reference. -/
structure TargetRef where
  kind : String
  name : String
deriving DecidableEq, Repr

/-- `vpa_types.PodUpdatePolicy`; update modes are the strings of the API. -/
structure PodUpdatePolicy where
  updateMode : Option String
deriving DecidableEq, Repr

/-- `vpa_types.ContainerResourcePolicy`. -/
structure ContainerResourcePolicy where
  containerName : String
  mode : Option String
  minAllowed : ResourceList
  maxAllowed : ResourceList

/-- `vpa_types.PodResourcePolicy`. -/
structure PodResourcePolicy where
  containerPolicies : List ContainerResourcePolicy

/-- `vpa_types.VerticalPodAutoscalerSpec`, the fields validation reads. -/
structure VpaSpec where
  updatePolicy : Option PodUpdatePolicy
  resourcePolicy : Option PodResourcePolicy
  targetRef : Option TargetRef

/-- `vpa_types.VerticalPodAutoscaler`. -/
structure VpaObject where
  spec : VpaSpec

/-- Result of `RecommendationProvider.GetContainersResourcesForPod`. -/
structure ProviderResult where
  containersResources : List ContainerResources
  annotationsPerContainer : Option (String → Option (List String))
  vpaName : String

/-- The injected collaborators of an `AdmissionServer`: the recommendation
provider and the two pre-processors, each able to fail. -/
structure AdmissionServerModel where
  provider : Pod → Except String ProviderResult
  podPreProcess : Pod → Except String Pod
  vpaPreProcess : VpaObject → Bool → Except String VpaObject

/-- `AdmissionServer.getPatchesForPodResourceRequest`; the raw bytes are
represented by their parse outcome `raw`. -/
def getPatchesForPodResourceRequest (s : AdmissionServerModel) (raw : Option Pod)
    (nspace : String) : Except String (List PatchRecord) :=
  match raw with
  | none => .error "cannot unmarshal pod"
  | some pod0 =>
    let pod := if pod0.name = "" then
      { pod0 with name := pod0.generateName ++ "%", nspace := nspace } else pod0
    match s.provider pod with
    | .error e => .error e
    | .ok pr =>
      match s.podPreProcess pod with
      | .error e => .error e
      | .ok pod1 =>
        let apc := pr.annotationsPerContainer.getD (fun _ => none)
        .ok (podResourcePatches pod1 pr.containersResources apc pr.vpaName)

/-- `possibleUpdateModes`. -/
def possibleUpdateModes : List String := ["Off", "Initial", "Recreate", "Auto"]

/-- `possibleScalingModes`. -/
def possibleScalingModes : List String := ["Auto", "Off"]

/-- Sequencing of a fallible check over a list, stopping at the first
error, as a Go loop with early return does. -/
def forEachCheck {α : Type _} (l : List α) (f : α → Except String Unit) : Except String Unit :=
  match l with
  | [] => .ok ()
  | x :: xs =>
    match f x with
    | .error e => .error e
    | .ok _ => forEachCheck xs f

/-- The min/max loop of `validateVPA` for one container policy. -/
def checkMinMax (policy : ContainerResourcePolicy) : Except String Unit :=
  match allResources.find? (fun r =>
      match policy.minAllowed r, policy.maxAllowed r with
      | some mn, some mx => decide (mx < mn)
      | _, _ => false) with
  | some r => .error ("max resource for " ++ r.str ++ " is lower than min")
  | none => .ok ()

/-- The per-container-policy checks of `validateVPA`. -/
def checkContainerPolicy (policy : ContainerResourcePolicy) : Except String Unit :=
  if policy.containerName = "" then .error "ContainerPolicies.ContainerName is required"
  else
    match policy.mode with
    | some m =>
      if possibleScalingModes.contains m then checkMinMax policy
      else .error ("unexpected Mode value " ++ m)
    | none => checkMinMax policy

/-- The update-policy block of `validateVPA`. -/
def updateModeCheck (vpa : VpaObject) : Except String Unit :=
  match vpa.spec.updatePolicy with
  | some up =>
    match up.updateMode with
    | none => Except.error "UpdateMode is required if UpdatePolicy is used"
    | some mode =>
      if possibleUpdateModes.contains mode then .ok ()
      else .error ("unexpected UpdateMode value " ++ mode)
  | none => .ok ()

/-- The resource-policy block of `validateVPA`. -/
def resourcePolicyCheck (vpa : VpaObject) : Except String Unit :=
  match vpa.spec.resourcePolicy with
  | some rp => forEachCheck rp.containerPolicies checkContainerPolicy
  | none => .ok ()

/-- The target-reference block of `validateVPA`. -/
def targetRefCheck (vpa : VpaObject) (isCreate : Bool) : Except String Unit :=
  if isCreate && vpa.spec.targetRef.isNone then
    .error "TargetRef is required"
  else .ok ()

/-- `validateVPA`: the three blocks in source order, stopping at the first
error. -/
def validateVPA (vpa : VpaObject) (isCreate : Bool) : Except String Unit :=
  match updateModeCheck vpa with
  | .error e => .error e
  | .ok _ =>
    match resourcePolicyCheck vpa with
    | .error e => .error e
    | .ok _ => targetRefCheck vpa isCreate

/-- Modelled from the spec: `NewDefaultVpaPreProcessor` is not part of the
repository sources and the spec describes no transformation of a submitted
config before validation, so the default pre-processor succeeds and
returns its input unchanged. -/
def defaultVpaPreProcess (vpa : VpaObject) (_isCreate : Bool) : Except String VpaObject :=
  .ok vpa

/-- Modelled from the spec: `NewDefaultPodPreProcessor` is not part of the
repository sources and the spec describes no transformation of a parsed
pod, so the default pre-processor succeeds and returns its input
unchanged. -/
def defaultPodPreProcess (pod : Pod) : Except String Pod :=
  .ok pod

/-- `AdmissionServer.getPatchesForVPADefaults`; the raw bytes are
represented by their parse outcome `raw`. -/
def getPatchesForVPADefaults (s : AdmissionServerModel) (raw : Option VpaObject)
    (isCreate : Bool) : Except String (List PatchRecord) :=
  match raw with
  | none => .error "cannot unmarshal vpa"
  | some vpa0 =>
    match s.vpaPreProcess vpa0 isCreate with
    | .error e => .error e
    | .ok vpa =>
      match validateVPA vpa isCreate with
      | .error e => .error e
      | .ok _ =>
        match vpa.spec.updatePolicy with
        | none => .ok [{ op := "add", path := ["spec", "updatePolicy"]
                         value := .updatePolicyDefault "Auto" }]
        | some _ => .ok []

/-- `metrics_admission.AdmissionStatus`. -/
inductive AdmissionStatus
  | error
  | applied
  | skipped
deriving DecidableEq, Repr

/-- `metrics_admission.AdmissionResource`. -/
inductive AdmissionResource
  | unknown
  | pod
  | vpa
deriving DecidableEq, Repr

/-- `metav1.GroupVersionResource`. -/
structure GroupVersionResource where
  group : String
  version : String
  resource : String
deriving DecidableEq, Repr

/-- `metav1.GroupResource`. -/
structure GroupResource where
  group : String
  resource : String
deriving DecidableEq, Repr

/-- The pod resource handled by the webhook. -/
def podResource : GroupVersionResource := ⟨"", "v1", "pods"⟩

/-- The autoscaler-config group resource handled by the webhook. -/
def vpaGroupResource : GroupResource := ⟨"autoscaling.k8s.io", "verticalpodautoscalers"⟩

/-- The raw admission object, represented by its parse outcomes as a pod
and as a config (Go unmarshals the same bytes in the selected branch). -/
structure RawObject where
  asPod : Option Pod
  asVpa : Option VpaObject

/-- The fields of `v1beta1.AdmissionRequest` the server reads. -/
structure AdmissionRequest where
  resource : GroupVersionResource
  nspace : String
  operation : String
  raw : RawObject

/-- `v1beta1.AdmissionResponse`: allowed flag, optional failure status
message, optional JSON patch. -/
structure AdmissionResponse where
  allowed : Bool
  result : Option String
  patch : Option (List PatchRecord)

/-- `AdmissionServer.admit`; the review bytes are represented by their
parse outcome `review`.  The response starts out allowed and is denied
only on the config path. -/
def admitRequest (s : AdmissionServerModel) (review : Option AdmissionRequest) :
    AdmissionResponse × AdmissionStatus × AdmissionResource :=
  match review with
  | none => ({ allowed := true, result := none, patch := none }, .error, .unknown)
  | some req =>
    let admittedGroupResource : GroupResource := ⟨req.resource.group, req.resource.resource⟩
    if req.resource = podResource then
      match getPatchesForPodResourceRequest s req.raw.asPod req.nspace with
      | .error _ =>
        ({ allowed := true, result := none, patch := none }, .error, .pod)
      | .ok patches =>
        ({ allowed := true, result := none
           patch := if 0 < patches.length then some patches else none },
         if 0 < patches.length then .applied else .skipped, .pod)
    else if admittedGroupResource = vpaGroupResource then
      match getPatchesForVPADefaults s req.raw.asVpa (req.operation = "CREATE") with
      | .error e =>
        ({ allowed := false, result := some e, patch := none }, .error, .vpa)
      | .ok patches =>
        ({ allowed := true, result := none
           patch := if 0 < patches.length then some patches else none },
         if 0 < patches.length then .applied else .skipped, .vpa)
    else
      ({ allowed := true, result := none, patch := none }, .error, .unknown)

/-! ## Claim C5: pod admissions are never denied -/

/-- Claim C5: an unparsable admission review is answered allowed with no
patch and an error metric; a pod-resource request is always allowed; and
when pod-path processing fails with any error the pod is admitted
unmodified while the error status is reported. -/
theorem c5_pod_admission_allowed_on_error (s : AdmissionServerModel) :
    ((admitRequest s none).1.allowed = true ∧ (admitRequest s none).1.patch = none ∧
      (admitRequest s none).2.1 = AdmissionStatus.error ∧
      (admitRequest s none).2.2 = AdmissionResource.unknown) ∧
    (∀ req : AdmissionRequest, req.resource = podResource →
      (admitRequest s (some req)).1.allowed = true) ∧
    (∀ (req : AdmissionRequest) (e : String), req.resource = podResource →
      getPatchesForPodResourceRequest s req.raw.asPod req.nspace = .error e →
      (admitRequest s (some req)).1.allowed = true ∧
      (admitRequest s (some req)).1.patch = none ∧
      (admitRequest s (some req)).2.1 = AdmissionStatus.error ∧
      (admitRequest s (some req)).2.2 = AdmissionResource.pod) := by
  refine ⟨by simp [admitRequest], ?_, ?_⟩
  · intro req hres
    simp only [admitRequest, hres, if_pos rfl]
    cases h : getPatchesForPodResourceRequest s req.raw.asPod req.nspace <;> simp [h]
  · intro req e hres herr
    simp only [admitRequest, hres, if_pos rfl, herr]
    exact ⟨rfl, rfl, rfl, rfl⟩

/-- A server whose recommendation provider always fails. -/
def c5server : AdmissionServerModel :=
  { provider := fun _ => .error "boom", podPreProcess := defaultPodPreProcess
    vpaPreProcess := defaultVpaPreProcess }

/-- A pod-creation admission request carrying the demonstration pod. -/
def c5req : AdmissionRequest :=
  { resource := podResource, nspace := "ns", operation := "CREATE"
    raw := { asPod := some demoPod, asVpa := none } }

theorem c5_pod_admission_allowed_on_error_witness :
    (admitRequest c5server (some c5req)).1.allowed = true ∧
    (admitRequest c5server (some c5req)).1.patch = none ∧
    (admitRequest c5server (some c5req)).2.1 = AdmissionStatus.error ∧
    (admitRequest c5server (some c5req)).2.2 = AdmissionResource.pod :=
  (c5_pod_admission_allowed_on_error c5server).2.2 c5req "boom" rfl rfl

/-! ## Claim C4: config admission validation -/

theorem forEachCheck_ok_iff {α : Type _} (l : List α) (f : α → Except String Unit) :
    forEachCheck l f = .ok () ↔ ∀ x ∈ l, f x = .ok () := by
  induction l with
  | nil => simp [forEachCheck]
  | cons x xs ih =>
    cases hfx : f x with
    | error e => simp [forEachCheck, hfx]
    | ok u => cases u; simp [forEachCheck, hfx, ih]

/-- The conditions under which a container policy is invalid, as the claim
words them: empty container name, out-of-enumeration scaling mode, or some
resource with both bounds set and the max below the min. -/
def claimInvalidContainerPolicy (policy : ContainerResourcePolicy) : Bool :=
  decide (policy.containerName = "") ||
  (match policy.mode with
   | some m => !possibleScalingModes.contains m
   | none => false) ||
  (allResources.any fun r =>
    match policy.minAllowed r, policy.maxAllowed r with
    | some mn, some mx => decide (mx < mn)
    | _, _ => false)

/-- The conditions under which validation of a config fails, as the claim
words them. -/
def claimInvalidConfig (vpa : VpaObject) (isCreate : Bool) : Bool :=
  (match vpa.spec.updatePolicy with
   | some up =>
     match up.updateMode with
     | none => true
     | some mode => !possibleUpdateModes.contains mode
   | none => false) ||
  (match vpa.spec.resourcePolicy with
   | some rp => rp.containerPolicies.any claimInvalidContainerPolicy
   | none => false) ||
  (isCreate && vpa.spec.targetRef.isNone)

theorem checkMinMax_ok_iff (policy : ContainerResourcePolicy) :
    checkMinMax policy = .ok () ↔
      (allResources.any fun r =>
        match policy.minAllowed r, policy.maxAllowed r with
        | some mn, some mx => decide (mx < mn)
        | _, _ => false) = false := by
  unfold checkMinMax
  cases hf : allResources.find? (fun r =>
      match policy.minAllowed r, policy.maxAllowed r with
      | some mn, some mx => decide (mx < mn)
      | _, _ => false) with
  | none =>
    rw [List.find?_eq_none] at hf
    simp only [List.any_eq_false]
    simpa using fun r hr => hf r hr
  | some r =>
    have hfr := List.find?_some hf
    have hmem := List.mem_of_find?_eq_some hf
    simp only [List.any_eq_false]
    constructor
    · intro h; cases h
    · intro h; exact absurd hfr (by simpa using h r hmem)

theorem checkContainerPolicy_ok_iff (policy : ContainerResourcePolicy) :
    checkContainerPolicy policy = .ok () ↔ claimInvalidContainerPolicy policy = false := by
  unfold checkContainerPolicy claimInvalidContainerPolicy
  by_cases hname : policy.containerName = ""
  · simp [hname]
  · cases hm : policy.mode with
    | none => simp [hname, hm, checkMinMax_ok_iff policy]
    | some m =>
      by_cases hmode : m ∈ possibleScalingModes
      · simp [hname, hm, hmode, checkMinMax_ok_iff policy]
      · simp [hname, hm, hmode]

theorem updateModeCheck_ok_iff (vpa : VpaObject) :
    updateModeCheck vpa = .ok () ↔
      (match vpa.spec.updatePolicy with
       | some up =>
         match up.updateMode with
         | none => true
         | some mode => !possibleUpdateModes.contains mode
       | none => false) = false := by
  unfold updateModeCheck
  cases hup : vpa.spec.updatePolicy with
  | none => simp
  | some up =>
    cases hm : up.updateMode with
    | none => simp [hm]
    | some mode =>
      by_cases hmode : mode ∈ possibleUpdateModes <;> simp [hm, hmode]

theorem resourcePolicyCheck_ok_iff (vpa : VpaObject) :
    resourcePolicyCheck vpa = .ok () ↔
      (match vpa.spec.resourcePolicy with
       | some rp => rp.containerPolicies.any claimInvalidContainerPolicy
       | none => false) = false := by
  unfold resourcePolicyCheck
  cases hrp : vpa.spec.resourcePolicy with
  | none => simp
  | some rp =>
    rw [forEachCheck_ok_iff]
    simp only [List.any_eq_false]
    constructor
    · intro h x hx
      simpa [← checkContainerPolicy_ok_iff] using h x hx
    · intro h x hx
      exact (checkContainerPolicy_ok_iff x).mpr (by simpa using h x hx)

theorem targetRefCheck_ok_iff (vpa : VpaObject) (isCreate : Bool) :
    targetRefCheck vpa isCreate = .ok () ↔ (isCreate && vpa.spec.targetRef.isNone) = false := by
  unfold targetRefCheck
  by_cases h : isCreate && vpa.spec.targetRef.isNone <;> simp [h]

theorem validateVPA_ok_iff (vpa : VpaObject) (isCreate : Bool) :
    validateVPA vpa isCreate = .ok () ↔ claimInvalidConfig vpa isCreate = false := by
  unfold validateVPA claimInvalidConfig
  cases h1 : updateModeCheck vpa with
  | error e =>
    have := (updateModeCheck_ok_iff vpa).symm
    rw [h1] at this
    simp only [Bool.or_eq_false_iff]
    constructor
    · intro h; cases h
    · rintro ⟨⟨hu, _⟩, _⟩
      exact absurd (this.mp hu) (by simp)
  | ok u =>
    cases u
    have hu := (updateModeCheck_ok_iff vpa).mp h1
    cases h2 : resourcePolicyCheck vpa with
    | error e =>
      have := (resourcePolicyCheck_ok_iff vpa).symm
      rw [h2] at this
      simp only [Bool.or_eq_false_iff]
      constructor
      · intro h; cases h
      · rintro ⟨⟨_, hr⟩, _⟩
        exact absurd (this.mp hr) (by simp)
    | ok u2 =>
      cases u2
      have hr := (resourcePolicyCheck_ok_iff vpa).mp h2
      rw [targetRefCheck_ok_iff, hu, hr]
      simp

/-- Claim C4, amended: with the default config pre-processor, a request for
the autoscaler-config group resource is denied, with a status message set,
iff the body fails to parse as a config or the parsed config fails
validation exactly on the enumerated conditions (out-of-enumeration or
missing update mode under a present update policy, empty container name or
bad scaling mode or max below min in some container policy, or a create
without target reference); otherwise the config is allowed. -/
theorem c4_config_admission_denial (s : AdmissionServerModel)
    (hpre : s.vpaPreProcess = defaultVpaPreProcess) (req : AdmissionRequest)
    (hres : (⟨req.resource.group, req.resource.resource⟩ : GroupResource) = vpaGroupResource) :
    ((admitRequest s (some req)).1.allowed = false ↔
      (req.raw.asVpa = none ∨
        ∃ vpa, req.raw.asVpa = some vpa ∧
          claimInvalidConfig vpa (req.operation = "CREATE") = true)) ∧
    ((admitRequest s (some req)).1.result.isSome ↔
      (admitRequest s (some req)).1.allowed = false) := by
  have hpod : ¬(req.resource = podResource) := by
    intro h
    have : req.resource.group = "" := by rw [h]; rfl
    rw [GroupResource.mk.injEq] at hres
    rw [this] at hres
    exact absurd hres.1 (by simp [vpaGroupResource])
  simp only [admitRequest, hpod, if_neg, if_pos, hres, if_pos rfl]
  rw [if_neg not_false]
  cases hraw : req.raw.asVpa with
  | none => simp [getPatchesForVPADefaults]
  | some vpa =>
    simp only [getPatchesForVPADefaults, hpre, defaultVpaPreProcess]
    cases hv : validateVPA vpa (req.operation = "CREATE") with
    | error e =>
      have : ¬ claimInvalidConfig vpa (req.operation = "CREATE") = false := by
        intro hfalse
        rw [← validateVPA_ok_iff] at hfalse
        rw [hfalse] at hv
        cases hv
      simp only [Bool.not_eq_false] at this
      simp [this]
    | ok u =>
      cases u
      have hfalse := (validateVPA_ok_iff vpa (req.operation = "CREATE")).mp hv
      cases hup : vpa.spec.updatePolicy with
      | none => simp [hup, hfalse]
      | some up => simp [hup, hfalse]

/-- A server with default pre-processors for the config-path theorems. -/
def c4server : AdmissionServerModel :=
  { provider := fun _ => .error "unused", podPreProcess := defaultPodPreProcess
    vpaPreProcess := defaultVpaPreProcess }

/-- A config admission request whose body does not parse as a config. -/
def c4badReq : AdmissionRequest :=
  { resource := ⟨"autoscaling.k8s.io", "v1", "verticalpodautoscalers"⟩
    nspace := "ns", operation := "CREATE", raw := { asPod := none, asVpa := none } }

/-- Counterexample to claim C4 as stated: a config request whose body does
not parse is denied even though no enumerated validation condition holds
of any submitted config (there is none). -/
theorem c4_config_admission_counterexample :
    (admitRequest c4server (some c4badReq)).1.allowed = false ∧
    ¬∃ vpa, c4badReq.raw.asVpa = some vpa ∧
      claimInvalidConfig vpa (c4badReq.operation = "CREATE") = true := by
  constructor
  · rfl
  · rintro ⟨vpa, h, _⟩
    simp [c4badReq] at h

/-- A valid config: no update policy, a target reference present. -/
def c4goodVpa : VpaObject := ⟨⟨none, none, some ⟨"Deployment", "app"⟩⟩⟩

/-- A config admission request carrying the valid config. -/
def c4goodReq : AdmissionRequest :=
  { resource := ⟨"autoscaling.k8s.io", "v1", "verticalpodautoscalers"⟩
    nspace := "ns", operation := "CREATE", raw := { asPod := none, asVpa := some c4goodVpa } }

theorem c4_config_admission_denial_witness :
    (admitRequest c4server (some c4goodReq)).1.allowed = true ∧
    (admitRequest c4server (some c4badReq)).1.allowed = false := by
  have hgood := c4_config_admission_denial c4server rfl c4goodReq rfl
  have hbad := c4_config_admission_denial c4server rfl c4badReq rfl
  constructor
  · cases hb : (admitRequest c4server (some c4goodReq)).1.allowed
    · exfalso
      rcases hgood.1.mp hb with h | ⟨vpa, h, hinv⟩
      · simp [c4goodReq] at h
      · rw [show vpa = c4goodVpa from by simpa [c4goodReq] using h.symm] at hinv
        simp [claimInvalidConfig, c4goodVpa] at hinv
    · rfl
  · exact hbad.1.mpr (Or.inl rfl)

/-! ## Claim C6: pod mutation patches -/

theorem intercalate_single (s x : String) : String.intercalate s [x] = x := rfl

/-- The empty-resources patch appears in the patches of one container iff
the container declares neither requests nor limits. -/
theorem emptyResourcesPatch_iff (pod' : Pod) (i : ℕ)
    (apc' : String → Option (List String)) (cr' : ContainerResources) :
    getPatchInitializingEmptyResources i ∈ (getContainerPatch pod' i apc' cr').1 ↔
      ((pod'.containers.getD i default).requests.isNone = true ∧
       (pod'.containers.getD i default).limits.isNone = true) := by
  have hne1 : ∀ k, getPatchInitializingEmptyResourcesSubfield i k ≠
      getPatchInitializingEmptyResources i := by
    intro k
    simp [getPatchInitializingEmptyResources, getPatchInitializingEmptyResourcesSubfield]
  have hne2 : ∀ k r q, getAddResourceRequirementValuePatch i k r q ≠
      getPatchInitializingEmptyResources i := by
    intro k r q
    simp [getPatchInitializingEmptyResources, getAddResourceRequirementValuePatch]
  have hne1s : ∀ k, getPatchInitializingEmptyResources i ≠
      getPatchInitializingEmptyResourcesSubfield i k := fun k => (hne1 k).symm
  have hne2s : ∀ k r q, getPatchInitializingEmptyResources i ≠
      getAddResourceRequirementValuePatch i k r q := fun k r q => (hne2 k r q).symm
  unfold getContainerPatch appendPatchesAndAnnotations
  generalize (pod'.containers.getD i default) = cont'
  obtain ⟨nm, creq, clim⟩ := cont'
  cases creq <;> cases clim <;> simp [hne1, hne2, hne1s, hne2s] <;>
    (try (split <;> simp [hne1, hne2, hne1s, hne2s])) <;>
    (try (split <;> simp [hne1, hne2, hne1s, hne2s]))

/-- Claim C6: for a pod whose single container declares requests but no
limits, matched with a capped recommendation carrying only request values
and no prior per-container annotations, the patch list is exactly the
`add` operations for each recommended request plus one vpaUpdates
annotation naming the mutated requests and the config; no patch path
contains a `limits` segment; and the empty-resources patch is emitted iff
the container declares neither requests nor limits. -/
theorem c6_pod_patch_requests_only (pod : Pod) (cont : Container)
    (reqs : ResourceList) (cr : ContainerResources)
    (apc : String → Option (List String)) (vpaName : String)
    (hcont : pod.containers = [cont])
    (hreq : cont.requests = some reqs) (hlim : cont.limits = none)
    (hcrlim : entriesRL cr.limits = []) (hann : pod.annotations = none)
    (hapc : apc cont.name = none) :
    (podResourcePatches pod [cr] apc vpaName =
      ((entriesRL cr.requests).map fun e =>
        getAddResourceRequirementValuePatch 0 "requests" e.1 e.2) ++
      [{ op := "add", path := ["metadata", "annotations"]
         value := .annotationsMap [("vpaUpdates",
           "Pod resources updated by " ++ vpaName ++ ": " ++
             ("container 0: " ++ String.intercalate ", "
               ((entriesRL cr.requests).map fun e => e.1.str ++ " request")))] }]) ∧
    (∀ p ∈ podResourcePatches pod [cr] apc vpaName, "limits" ∉ p.path) ∧
    (∀ (pod' : Pod) (i : ℕ) (apc' : String → Option (List String))
       (cr' : ContainerResources),
      getPatchInitializingEmptyResources i ∈ (getContainerPatch pod' i apc' cr').1 ↔
        ((pod'.containers.getD i default).requests.isNone ∧
         (pod'.containers.getD i default).limits.isNone)) := by
  have hmain : podResourcePatches pod [cr] apc vpaName =
      ((entriesRL cr.requests).map fun e =>
        getAddResourceRequirementValuePatch 0 "requests" e.1 e.2) ++
      [{ op := "add", path := ["metadata", "annotations"]
         value := .annotationsMap [("vpaUpdates",
           "Pod resources updated by " ++ vpaName ++ ": " ++
             ("container 0: " ++ String.intercalate ", "
               ((entriesRL cr.requests).map fun e => e.1.str ++ " request")))] }] := by
    simp [podResourcePatches, getContainerPatch, appendPatchesAndAnnotations, hcont, hreq,
      hlim, hcrlim, hann, hapc, intercalate_single]
    rw [show ("container " ++ toString (0 : ℕ) ++ ": " : String) = "container 0: " from rfl]
    simp only [String.append_assoc]
    simp only [show (" " ++ "request" : String) = " request" from rfl]
  refine ⟨hmain, ?_, ?_⟩
  · intro p hp
    rw [hmain] at hp
    rcases List.mem_append.mp hp with hp | hp
    · rcases List.mem_map.mp hp with ⟨e, _, rfl⟩
      rcases e with ⟨r, q⟩
      cases r <;> simp [getAddResourceRequirementValuePatch, ResourceName.str] <;> decide
    · simp only [List.mem_singleton] at hp
      subst hp
      simp
  · intro pod' i apc' cr'
    exact emptyResourcesPatch_iff pod' i apc' cr' 

theorem c6_pod_patch_requests_only_witness :
    podResourcePatches demoPod [⟨rlOf [(.cpu, 300)], rlOf []⟩] (fun _ => none) "demo-vpa" =
      ((entriesRL (rlOf [(.cpu, 300)])).map fun e =>
        getAddResourceRequirementValuePatch 0 "requests" e.1 e.2) ++
      [{ op := "add", path := ["metadata", "annotations"]
         value := .annotationsMap [("vpaUpdates",
           "Pod resources updated by " ++ "demo-vpa" ++ ": " ++
             ("container 0: " ++ String.intercalate ", "
               ((entriesRL (rlOf [(.cpu, 300)])).map fun e => e.1.str ++ " request")))] }] :=
  (c6_pod_patch_requests_only demoPod ⟨"c", some (rlOf [(.cpu, 100)]), none⟩
    (rlOf [(.cpu, 100)]) ⟨rlOf [(.cpu, 300)], rlOf []⟩ (fun _ => none) "demo-vpa"
    rfl rfl rfl rfl rfl rfl).1

/-! ## Recommender routines
Embedding of `pkg/recommender/routines/recommender.go`. -/

/-- `logic.RecommendedContainerResources` as produced by the pod resource
recommender (the recommender-internal triple). -/
structure ModelContainerResources where
  target : ResourceList
  lowerBound : ResourceList
  upperBound : ResourceList

/-- Lookup of the container policy matching a container name. -/
def policyFor (policy : Option PodResourcePolicy) (name : String) :
    Option ContainerResourcePolicy :=
  policy.bind fun p => p.containerPolicies.find? fun cp => decide (cp.containerName = name)

/-- Clamp one quantity into the policy interval. -/
def clampQ (v : Quantity) (mn mx : Option Quantity) : Quantity :=
  let v := match mx with | some m => min v m | none => v
  match mn with | some m => max v m | none => v

/-- Clamp a resource list componentwise into a container policy. -/
def clampRL (rl : ResourceList) (p : ContainerResourcePolicy) : ResourceList :=
  fun r => (rl r).map fun v => clampQ v (p.minAllowed r) (p.maxAllowed r)

/-- Modelled from the spec: `vpa_utils.ApplyVPAPolicy` is not part of the
repository sources.  Per spec section 4.4 the capping pipeline drops
containers whose scaling mode is Off and clamps `Target`, `LowerBound` and
`UpperBound` into the per-container policy bounds; per section 4.3
`UncappedTarget` is preserved for reporting. -/
def ApplyVPAPolicy (recommendation : RecommendedPodResources)
    (policy : Option PodResourcePolicy) : RecommendedPodResources :=
  ⟨recommendation.containerRecommendations.filterMap fun cr =>
    match policyFor policy cr.containerName with
    | none => some cr
    | some p =>
      if p.mode = some "Off" then none
      else some { cr with
        target := clampRL cr.target p
        lowerBound := clampRL cr.lowerBound p
        upperBound := clampRL cr.upperBound p }⟩

/-- `getCappedRecommendation`: build the API recommendation from the
computed resources, setting `UncappedTarget` to the computed target, then
run the policy capping. -/
def getCappedRecommendation (resources : List (String × ModelContainerResources))
    (policy : Option PodResourcePolicy) : RecommendedPodResources :=
  let containerResources := resources.map fun p =>
    { containerName := p.1, target := p.2.target, lowerBound := p.2.lowerBound
      upperBound := p.2.upperBound
      uncappedTarget := p.2.target : RecommendedContainerResources }
  ApplyVPAPolicy ⟨containerResources⟩ policy

/-- Claim C7: every container in the result of `getCappedRecommendation`
carries as `UncappedTarget` the raw computed target of that container, with
capping free to modify only `Target`, `LowerBound` and `UpperBound`. -/
theorem c7_uncappedTarget_preserved (resources : List (String × ModelContainerResources))
    (policy : Option PodResourcePolicy) :
    ∀ cr ∈ (getCappedRecommendation resources policy).containerRecommendations,
      ∃ p ∈ resources, p.1 = cr.containerName ∧ cr.uncappedTarget = p.2.target := by
  intro cr hcr
  unfold getCappedRecommendation ApplyVPAPolicy at hcr
  simp only [List.mem_filterMap, List.mem_map] at hcr
  obtain ⟨cr0, ⟨p, hp, hbuild⟩, hkeep⟩ := hcr
  subst hbuild
  refine ⟨p, hp, ?_⟩
  cases hpol : policyFor policy p.1 with
  | none =>
    simp only [hpol] at hkeep
    cases hkeep
    exact ⟨rfl, rfl⟩
  | some cpol =>
    simp only [hpol] at hkeep
    by_cases hoff : cpol.mode = some "Off"
    · simp [hoff] at hkeep
    · rw [if_neg hoff] at hkeep
      cases hkeep
      exact ⟨rfl, rfl⟩

theorem c7_uncappedTarget_preserved_witness :
    ∃ p ∈ [("c", (⟨rlOf [(.cpu, 100)], rlOf [], rlOf []⟩ : ModelContainerResources))],
      p.1 = "c" ∧ rlOf [(.cpu, 100)] = p.2.target :=
  have h := c7_uncappedTarget_preserved
    [("c", (⟨rlOf [(.cpu, 100)], rlOf [], rlOf []⟩ : ModelContainerResources))] none
    { containerName := "c", target := rlOf [(.cpu, 100)], lowerBound := rlOf []
      upperBound := rlOf [], uncappedTarget := rlOf [(.cpu, 100)] }
    (List.mem_singleton.mpr rfl)
  h

/-! ## Claim C8: the RunOnce sequence -/

/-- The observable steps of one recommender iteration. -/
inductive RecEvent
  | loadVPAs
  | loadPods
  | loadRealTimeMetrics
  | updateVPAs
  | statusWrite (name : String)
  | maintainCheckpoints
  | storeCheckpoints
  | checkpointsGC
  | garbageCollect
  | aggregateStatesGC
deriving DecidableEq, Repr

/-- One config as `UpdateVPAs` sees it: `tracked` is whether the cluster
state holds a matching vpa entry, `computedStatus` stands for the status
the recommender computes (`vpa.AsStatus()` after `UpdateRecommendation`)
and `observedStatus` for the status currently observed. -/
structure ObservedVpa where
  name : String
  tracked : Bool
  computedStatus : Int
  observedStatus : Int
deriving DecidableEq, Repr

/-- The fields of the `recommender` struct that the embedded loop reads,
plus an event trace recording the calls it makes. -/
structure RecommenderState where
  observedVpas : List ObservedVpa
  useCheckpoints : Bool
  checkpointsGCInterval : Int
  lastCheckpointGC : Int
  lastAggregateContainerStateGC : Int
  trace : List RecEvent

/-- Append one event to the trace. -/
def emitEvent (st : RecommenderState) (e : RecEvent) : RecommenderState :=
  { st with trace := st.trace ++ [e] }

/-- `ClusterStateFeeder.LoadVPAs`: an external feeder effect, recorded. -/
def LoadVPAs (st : RecommenderState) : RecommenderState := emitEvent st .loadVPAs

/-- `ClusterStateFeeder.LoadPods`: an external feeder effect, recorded. -/
def LoadPods (st : RecommenderState) : RecommenderState := emitEvent st .loadPods

/-- `ClusterStateFeeder.LoadRealTimeMetrics`: an external feeder effect,
recorded. -/
def LoadRealTimeMetrics (st : RecommenderState) : RecommenderState :=
  emitEvent st .loadRealTimeMetrics

/-- Modelled from the spec: `vpa_utils.UpdateVpaStatusIfNeeded` is not part
of the repository sources; per the spec the computed recommendation is
written onto the config status only if it differs from the observed
status. -/
def UpdateVpaStatusIfNeeded (newStatus observedStatus : Int) : Bool :=
  decide (newStatus ≠ observedStatus)

/-- `recommender.UpdateVPAs`: iterate over the observed configs, skip the
untracked ones, and write each status that needs writing. -/
def UpdateVPAs (st : RecommenderState) : RecommenderState :=
  let st := emitEvent st .updateVPAs
  st.observedVpas.foldl
    (fun st v =>
      if v.tracked && UpdateVpaStatusIfNeeded v.computedStatus v.observedStatus then
        emitEvent st (.statusWrite v.name)
      else st)
    st

/-- `recommender.MaintainCheckpoints`. -/
def MaintainCheckpoints (st : RecommenderState) (now : Int) : RecommenderState :=
  let st := emitEvent st .maintainCheckpoints
  if st.useCheckpoints then
    let st := emitEvent st .storeCheckpoints
    if st.checkpointsGCInterval < now - st.lastCheckpointGC then
      emitEvent { st with lastCheckpointGC := now } .checkpointsGC
    else st
  else st

/-- `AggregateContainerStateGCInterval`: 1 hour, in nanoseconds. -/
def AggregateContainerStateGCInterval : Int := 3600 * 1000000000

/-- `recommender.GarbageCollect`: the aggregate-state collection runs only
when more than the GC interval has elapsed since the previous one. -/
def GarbageCollect (st : RecommenderState) (now : Int) : RecommenderState :=
  let st := emitEvent st .garbageCollect
  if AggregateContainerStateGCInterval < now - st.lastAggregateContainerStateGC then
    emitEvent { st with lastAggregateContainerStateGC := now } .aggregateStatesGC
  else st

/-- `recommender.RunOnce`: the six phases in source order. -/
def RunOnce (st : RecommenderState) (now : Int) : RecommenderState :=
  GarbageCollect
    (MaintainCheckpoints (UpdateVPAs (LoadRealTimeMetrics (LoadPods (LoadVPAs st)))) now) now

theorem updateVPAs_foldl_statusWrites (l : List ObservedVpa) (st0 : RecommenderState) :
    (l.foldl
      (fun st v =>
        if v.tracked && UpdateVpaStatusIfNeeded v.computedStatus v.observedStatus then
          emitEvent st (.statusWrite v.name)
        else st)
      st0) =
    { st0 with trace := st0.trace ++
        ((l.filter fun v =>
            v.tracked && UpdateVpaStatusIfNeeded v.computedStatus v.observedStatus).map
          fun v => .statusWrite v.name) } := by
  induction l generalizing st0 with
  | nil => simp
  | cons v vs ih =>
    simp only [List.foldl_cons, List.filter_cons]
    by_cases h : (v.tracked && UpdateVpaStatusIfNeeded v.computedStatus v.observedStatus) = true
    · rw [if_pos h, ih]
      simp [h, emitEvent]
    · rw [if_neg h, ih]
      simp [h]

/-- Claim C8: every call to `RunOnce` performs, in order, `LoadVPAs`,
`LoadPods`, `LoadRealTimeMetrics`, `UpdateVPAs` (writing each tracked
config status only when it differs from the observed status),
`MaintainCheckpoints`, and finally `GarbageCollect`, whose aggregate-state
collection executes only when more than `AggregateContainerStateGCInterval`
has elapsed since the previous collection. -/
theorem c8_runOnce_sequence (st : RecommenderState) (now : Int) :
    (RunOnce st now).trace =
      st.trace ++ [.loadVPAs, .loadPods, .loadRealTimeMetrics, .updateVPAs] ++
      ((st.observedVpas.filter fun v =>
          v.tracked && UpdateVpaStatusIfNeeded v.computedStatus v.observedStatus).map
        fun v => .statusWrite v.name) ++
      [.maintainCheckpoints] ++
      (if st.useCheckpoints then
        .storeCheckpoints ::
          (if st.checkpointsGCInterval < now - st.lastCheckpointGC then
            [.checkpointsGC]
          else [])
       else []) ++
      [.garbageCollect] ++
      (if AggregateContainerStateGCInterval < now - st.lastAggregateContainerStateGC then
        [.aggregateStatesGC]
       else []) := by
  unfold RunOnce GarbageCollect MaintainCheckpoints UpdateVPAs LoadRealTimeMetrics LoadPods
    LoadVPAs
  rw [updateVPAs_foldl_statusWrites]
  by_cases hc : st.useCheckpoints = true <;>
  by_cases hk : st.checkpointsGCInterval < now - st.lastCheckpointGC <;>
  by_cases hg : AggregateContainerStateGCInterval < now - st.lastAggregateContainerStateGC <;>
    simp [emitEvent, hc, hk, hg]

/-! ## Limit ranges
Embedding of `limitsChecker.getLimitRangeItem`. -/

/-- `core.LimitType`. -/
inductive LimitType
  | container
  | pod
deriving DecidableEq, Repr

/-- `core.LimitRangeItem`: per-type constraints, each field a possibly nil
resource list. -/
structure LimitRangeItem where
  type : LimitType
  Max : Option ResourceList
  Min : Option ResourceList
  Default : Option ResourceList

/-- `core.LimitRangeSpec`. -/
structure LimitRangeSpec where
  limits : List LimitRangeItem

/-- `core.LimitRange`. -/
structure LimitRange where
  spec : LimitRangeSpec

/-- `pickLowerMax`. -/
def pickLowerMax (q1 q2 : Quantity) : Quantity := if q1 < q2 then q1 else q2

/-- `chooseHigherMin`. -/
def chooseHigherMin (q1 q2 : Quantity) : Quantity := if q1 > q2 then q1 else q2

/-- `updatedResult`: merge one resource entry of a limit-range item into
the accumulated list; a nil accumulator receives a copy of the whole item
list. -/
def updatedResult (result : Option ResourceList) (lrItem : Option ResourceList)
    (resourceName : ResourceName) (picker : Quantity → Quantity → Quantity) :
    Option ResourceList :=
  match lrItem with
  | none => result
  | some l =>
    match result with
    | none => some l
    | some res =>
      match l resourceName with
      | some lrResource =>
        match res resourceName with
        | none => some (res.set resourceName lrResource)
        | some resultResource => some (res.set resourceName (picker resultResource lrResource))
      | none => some res

/-- The loop guard of `getLimitRangeItem`: the item has the requested type
and sets at least one of Max, Default, Min. -/
def qualifiesLR (limitType : LimitType) (lri : LimitRangeItem) : Bool :=
  lri.type = limitType && (lri.Max.isSome || lri.Default.isSome || lri.Min.isSome)

/-- The body of the nested loop of `getLimitRangeItem` for one item. -/
def stepLimitRangeItem (limitType : LimitType) (result : LimitRangeItem)
    (lri : LimitRangeItem) : LimitRangeItem :=
  if qualifiesLR limitType lri then
    let result := match lri.Default with
      | some d => { result with Default := some d }
      | none => result
    { result with
      Max := updatedResult (updatedResult result.Max lri.Max .cpu pickLowerMax) lri.Max
        .memory pickLowerMax
      Min := updatedResult (updatedResult result.Min lri.Min .cpu chooseHigherMin) lri.Min
        .memory chooseHigherMin }
  else result

/-- `limitsChecker.getLimitRangeItem`, over the listed limit ranges of the
namespace. -/
def getLimitRangeItem (limitRanges : List LimitRange) (limitType : LimitType) :
    Option LimitRangeItem :=
  let result := limitRanges.foldl
    (fun acc lr => lr.spec.limits.foldl (stepLimitRangeItem limitType) acc)
    { type := limitType, Max := none, Min := none, Default := none }
  if result.Min.isSome || result.Max.isSome || result.Default.isSome then some result
  else none

/-- The items of the requested type that set any constraint, in encounter
order. -/
def qualifyingItems (limitRanges : List LimitRange) (limitType : LimitType) :
    List LimitRangeItem :=
  (limitRanges.flatMap fun lr => lr.spec.limits).filter (qualifiesLR limitType)

/-- The maxima set for one resource by the qualifying items. -/
def maximaAt (limitRanges : List LimitRange) (limitType : LimitType) (r : ResourceName) :
    List Quantity :=
  (qualifyingItems limitRanges limitType).filterMap fun lri => lri.Max.bind fun m => m r

/-- The minima set for one resource by the qualifying items. -/
def minimaAt (limitRanges : List LimitRange) (limitType : LimitType) (r : ResourceName) :
    List Quantity :=
  (qualifyingItems limitRanges limitType).filterMap fun lri => lri.Min.bind fun m => m r

/-- Combine two optional quantities with a picker, as the merge does. -/
def optPick (picker : Quantity → Quantity → Quantity) (a b : Option Quantity) :
    Option Quantity :=
  match a, b with
  | none, b => b
  | some x, none => some x
  | some x, some y => some (picker x y)

theorem optPick_none_right (picker : Quantity → Quantity → Quantity) (a : Option Quantity) :
    optPick picker a none = a := by
  cases a <;> rfl

theorem pickLowerMax_eq_min (q1 q2 : Quantity) : pickLowerMax q1 q2 = min q1 q2 := by
  unfold pickLowerMax
  rcases le_or_lt q1 q2 with h | h
  · rcases eq_or_lt_of_le h with heq | hlt
    · subst heq; simp
    · rw [if_pos hlt, min_eq_left h]
  · rw [if_neg (not_lt.mpr h.le), min_eq_right h.le]

theorem chooseHigherMin_eq_max (q1 q2 : Quantity) : chooseHigherMin q1 q2 = max q1 q2 := by
  unfold chooseHigherMin
  rcases le_or_lt q1 q2 with h | h
  · rw [if_neg (not_lt.mpr h), max_eq_right h]
  · rw [if_pos h, max_eq_left h.le]

theorem updatedResult_at (result lrItem : Option ResourceList) (r : ResourceName)
    (picker : Quantity → Quantity → Quantity) :
    ((updatedResult result lrItem r picker).bind fun m => m r) =
      optPick picker (result.bind fun m => m r) (lrItem.bind fun m => m r) := by
  cases lrItem with
  | none => simp [updatedResult, optPick_none_right]
  | some l =>
    cases result with
    | none => simp [updatedResult, optPick]
    | some res =>
      cases hl : l r with
      | none => simp [updatedResult, hl, optPick_none_right]
      | some q =>
        cases hres : res r with
        | none => simp [updatedResult, hl, hres, optPick]
        | some a => simp [updatedResult, hl, hres, optPick]

theorem updatedResult_at_other (result lrItem : Option ResourceList) (r' r : ResourceName)
    (h : r ≠ r') (picker : Quantity → Quantity → Quantity) :
    ((updatedResult result lrItem r' picker).bind fun m => m r) =
      match result, lrItem with
      | none, some l => l r
      | _, _ => result.bind fun m => m r := by
  cases lrItem with
  | none => cases result <;> simp [updatedResult]
  | some l =>
    cases result with
    | none => simp [updatedResult]
    | some res =>
      cases hl : l r' with
      | none => simp [updatedResult, hl]
      | some q =>
        cases hres : res r' with
        | none => simp [updatedResult, hl, hres, h]
        | some a => simp [updatedResult, hl, hres, h]

theorem updatedResult_isSome (result lrItem : Option ResourceList) (r : ResourceName)
    (picker : Quantity → Quantity → Quantity) :
    (updatedResult result lrItem r picker).isSome = (result.isSome || lrItem.isSome) := by
  cases lrItem with
  | none => cases result <;> simp [updatedResult]
  | some l =>
    cases result with
    | none => simp [updatedResult]
    | some res =>
      cases hl : l r with
      | none => simp [updatedResult, hl]
      | some q => cases hres : res r <;> simp [updatedResult, hl, hres]

theorem twoPass_at (base lrl : Option ResourceList)
    (picker : Quantity → Quantity → Quantity) (hidem : ∀ x, picker x x = x)
    (r : ResourceName) (hr : r = ResourceName.cpu ∨ r = ResourceName.memory) :
    ((updatedResult (updatedResult base lrl .cpu picker) lrl .memory picker).bind
        fun m => m r) =
      optPick picker (base.bind fun m => m r) (lrl.bind fun m => m r) := by
  rcases hr with hr | hr <;> subst hr
  · rw [updatedResult_at_other _ _ _ _ (by decide) picker]
    cases lrl with
    | none => cases base <;> simp [updatedResult, optPick_none_right]
    | some l =>
      cases base with
      | none => simp [updatedResult, optPick]
      | some res =>
        have h := updatedResult_at (some res) (some l) .cpu picker
        cases hinner : updatedResult (some res) (some l) .cpu picker with
        | none => rw [hinner] at h; simp [optPick] at h; exact absurd hinner (by
            cases hl : l ResourceName.cpu <;> cases hres : res ResourceName.cpu <;>
              simp [updatedResult, hl, hres])
        | some inner =>
          rw [hinner] at h
          simpa using h
  · rw [updatedResult_at]
    cases lrl with
    | none => simp [updatedResult, optPick_none_right]
    | some l =>
      cases base with
      | none =>
        rw [updatedResult_at_other _ _ _ _ (by decide) picker]
        simp only [optPick]
        cases hl : l ResourceName.memory <;> simp [optPick, hidem, hl]
      | some res =>
        rw [updatedResult_at_other _ _ _ _ (by decide) picker]

theorem step_Max_at (t : LimitType) (result lri : LimitRangeItem) (r : ResourceName)
    (hr : r = ResourceName.cpu ∨ r = ResourceName.memory) :
    ((stepLimitRangeItem t result lri).Max.bind fun m => m r) =
      if qualifiesLR t lri then
        optPick pickLowerMax (result.Max.bind fun m => m r) (lri.Max.bind fun m => m r)
      else result.Max.bind fun m => m r := by
  unfold stepLimitRangeItem
  by_cases q : qualifiesLR t lri
  · rw [if_pos q, if_pos q]
    cases hd : lri.Default <;>
      simp only [hd] <;>
      exact twoPass_at _ _ _ (fun x => by simp [pickLowerMax]) r hr
  · rw [if_neg q, if_neg q]

theorem step_Min_at (t : LimitType) (result lri : LimitRangeItem) (r : ResourceName)
    (hr : r = ResourceName.cpu ∨ r = ResourceName.memory) :
    ((stepLimitRangeItem t result lri).Min.bind fun m => m r) =
      if qualifiesLR t lri then
        optPick chooseHigherMin (result.Min.bind fun m => m r) (lri.Min.bind fun m => m r)
      else result.Min.bind fun m => m r := by
  unfold stepLimitRangeItem
  by_cases q : qualifiesLR t lri
  · rw [if_pos q, if_pos q]
    cases hd : lri.Default <;>
      simp only [hd] <;>
      exact twoPass_at _ _ _ (fun x => by simp [chooseHigherMin]) r hr
  · rw [if_neg q, if_neg q]

theorem step_Default (t : LimitType) (result lri : LimitRangeItem) :
    (stepLimitRangeItem t result lri).Default =
      if qualifiesLR t lri then
        match lri.Default with
        | some d => some d
        | none => result.Default
      else result.Default := by
  unfold stepLimitRangeItem
  by_cases q : qualifiesLR t lri
  · rw [if_pos q, if_pos q]
    cases hd : lri.Default <;> simp [hd]
  · rw [if_neg q, if_neg q]

theorem step_isSome (t : LimitType) (result lri : LimitRangeItem) :
    ((stepLimitRangeItem t result lri).Max.isSome =
      (result.Max.isSome || (qualifiesLR t lri && lri.Max.isSome))) ∧
    ((stepLimitRangeItem t result lri).Min.isSome =
      (result.Min.isSome || (qualifiesLR t lri && lri.Min.isSome))) ∧
    ((stepLimitRangeItem t result lri).Default.isSome =
      (result.Default.isSome || (qualifiesLR t lri && lri.Default.isSome))) := by
  unfold stepLimitRangeItem
  by_cases q : qualifiesLR t lri
  · rw [if_pos q]
    cases hd : lri.Default <;>
      simp [hd, q, updatedResult_isSome, Bool.or_assoc, Bool.or_self]
  · rw [if_neg q]
    simp [q]

theorem foldl_lastWins (l : List ResourceList) (o : Option ResourceList) :
    l.foldl (fun _ d => some d) o = (l.getLast?).elim o some := by
  induction l using List.reverseRecOn with
  | nil => rfl
  | append_singleton l a ih => simp [List.foldl_append, List.getLast?_concat]

theorem foldl_step_Default (t : LimitType) (l : List LimitRangeItem) (acc : LimitRangeItem) :
    (l.foldl (stepLimitRangeItem t) acc).Default =
      ((l.filter (qualifiesLR t)).filterMap fun i => i.Default).foldl
        (fun _ d => some d) acc.Default := by
  induction l generalizing acc with
  | nil => rfl
  | cons x xs ih =>
    simp only [List.foldl_cons, List.filter_cons]
    by_cases q : qualifiesLR t x
    · rw [ih]
      cases hd : x.Default with
      | none => simp [q, hd, step_Default, List.filterMap_cons]
      | some d => simp [q, hd, step_Default, List.filterMap_cons]
    · rw [ih]
      simp [q, step_Default]

theorem foldl_step_Max_at (t : LimitType) (l : List LimitRangeItem) (acc : LimitRangeItem)
    (r : ResourceName) (hr : r = ResourceName.cpu ∨ r = ResourceName.memory) :
    ((l.foldl (stepLimitRangeItem t) acc).Max.bind fun m => m r) =
      ((l.filter (qualifiesLR t)).filterMap fun i => i.Max.bind fun m => m r).foldl
        (fun o q => optPick pickLowerMax o (some q)) (acc.Max.bind fun m => m r) := by
  induction l generalizing acc with
  | nil => rfl
  | cons x xs ih =>
    simp only [List.foldl_cons, List.filter_cons]
    by_cases q : qualifiesLR t x
    · rw [ih]
      cases hx : x.Max.bind fun m => m r with
      | none =>
        simp [q, List.filterMap_cons, hx, step_Max_at t acc x r hr, optPick_none_right]
      | some v =>
        simp [q, List.filterMap_cons, hx, step_Max_at t acc x r hr]
    · rw [ih]
      simp [q, step_Max_at t acc x r hr]

theorem foldl_step_Min_at (t : LimitType) (l : List LimitRangeItem) (acc : LimitRangeItem)
    (r : ResourceName) (hr : r = ResourceName.cpu ∨ r = ResourceName.memory) :
    ((l.foldl (stepLimitRangeItem t) acc).Min.bind fun m => m r) =
      ((l.filter (qualifiesLR t)).filterMap fun i => i.Min.bind fun m => m r).foldl
        (fun o q => optPick chooseHigherMin o (some q)) (acc.Min.bind fun m => m r) := by
  induction l generalizing acc with
  | nil => rfl
  | cons x xs ih =>
    simp only [List.foldl_cons, List.filter_cons]
    by_cases q : qualifiesLR t x
    · rw [ih]
      cases hx : x.Min.bind fun m => m r with
      | none =>
        simp [q, List.filterMap_cons, hx, step_Min_at t acc x r hr, optPick_none_right]
      | some v =>
        simp [q, List.filterMap_cons, hx, step_Min_at t acc x r hr]
    · rw [ih]
      simp [q, step_Min_at t acc x r hr]

theorem foldl_optPick_some (picker : Quantity → Quantity → Quantity)
    (vals : List Quantity) (a : Quantity) :
    vals.foldl (fun o q => optPick picker o (some q)) (some a) =
      some (vals.foldl picker a) := by
  induction vals generalizing a with
  | nil => rfl
  | cons x xs ih =>
    simp only [List.foldl_cons]
    exact ih (picker a x)

theorem foldl_pick_eq_foldl_min (xs : List Quantity) (a : Quantity) :
    xs.foldl pickLowerMax a = xs.foldl min a := by
  induction xs generalizing a with
  | nil => rfl
  | cons y ys ih => simp [List.foldl_cons, pickLowerMax_eq_min, ih]

theorem foldl_choose_eq_foldl_max (xs : List Quantity) (a : Quantity) :
    xs.foldl chooseHigherMin a = xs.foldl max a := by
  induction xs generalizing a with
  | nil => rfl
  | cons y ys ih => simp [List.foldl_cons, chooseHigherMin_eq_max, ih]

theorem foldl_optPick_min (vals : List Quantity) :
    vals.foldl (fun o q => optPick pickLowerMax o (some q)) none = vals.min? := by
  cases vals with
  | nil => rfl
  | cons x xs =>
    show xs.foldl (fun o q => optPick pickLowerMax o (some q)) (some x) = _
    rw [foldl_optPick_some]
    simp only [List.min?]
    congr 1
    exact foldl_pick_eq_foldl_min xs x

theorem foldl_optPick_max (vals : List Quantity) :
    vals.foldl (fun o q => optPick chooseHigherMin o (some q)) none = vals.max? := by
  cases vals with
  | nil => rfl
  | cons x xs =>
    show xs.foldl (fun o q => optPick chooseHigherMin o (some q)) (some x) = _
    rw [foldl_optPick_some]
    simp only [List.max?]
    congr 1
    exact foldl_choose_eq_foldl_max xs x

theorem foldl_step_isSome (t : LimitType) (l : List LimitRangeItem) (acc : LimitRangeItem) :
    ((l.foldl (stepLimitRangeItem t) acc).Max.isSome =
      (acc.Max.isSome || (l.filter (qualifiesLR t)).any fun i => i.Max.isSome)) ∧
    ((l.foldl (stepLimitRangeItem t) acc).Min.isSome =
      (acc.Min.isSome || (l.filter (qualifiesLR t)).any fun i => i.Min.isSome)) ∧
    ((l.foldl (stepLimitRangeItem t) acc).Default.isSome =
      (acc.Default.isSome || (l.filter (qualifiesLR t)).any fun i => i.Default.isSome)) := by
  induction l generalizing acc with
  | nil => simp
  | cons x xs ih =>
    obtain ⟨ihMax, ihMin, ihDefault⟩ := ih (stepLimitRangeItem t acc x)
    obtain ⟨sMax, sMin, sDefault⟩ := step_isSome t acc x
    by_cases q : qualifiesLR t x <;>
      simp [List.foldl_cons, List.filter_cons, q, ihMax, ihMin, ihDefault, sMax, sMin,
        sDefault, Bool.or_assoc]

theorem nested_foldl_eq_flat (t : LimitType) (lrs : List LimitRange) (acc : LimitRangeItem) :
    lrs.foldl (fun acc lr => lr.spec.limits.foldl (stepLimitRangeItem t) acc) acc =
      (lrs.flatMap fun lr => lr.spec.limits).foldl (stepLimitRangeItem t) acc := by
  induction lrs generalizing acc with
  | nil => rfl
  | cons lr rest ih => simp [List.flatMap_cons, List.foldl_append, ih]

/-- Claim C10: `getLimitRangeItem` returns no constraint iff no item of the
requested type sets Min, Max or Default; otherwise it returns one combined
item whose Max per resource (cpu and memory) is the smallest of the
qualifying items' maxima, whose Min per resource is the largest of their
minima, and whose Default is the last Default encountered. -/
theorem c10_getLimitRangeItem_combines (limitRanges : List LimitRange)
    (limitType : LimitType) :
    (getLimitRangeItem limitRanges limitType = none ↔
      qualifyingItems limitRanges limitType = []) ∧
    (∀ item, getLimitRangeItem limitRanges limitType = some item →
      (∀ r ∈ [ResourceName.cpu, ResourceName.memory],
        (item.Max.bind fun m => m r) = (maximaAt limitRanges limitType r).min? ∧
        (item.Min.bind fun m => m r) = (minimaAt limitRanges limitType r).max?) ∧
      item.Default =
        ((qualifyingItems limitRanges limitType).filterMap fun i => i.Default).getLast?) := by
  have hdef : getLimitRangeItem limitRanges limitType =
      (if ((limitRanges.flatMap fun lr => lr.spec.limits).foldl (stepLimitRangeItem limitType)
            { type := limitType, Max := none, Min := none, Default := none }).Min.isSome ||
          ((limitRanges.flatMap fun lr => lr.spec.limits).foldl (stepLimitRangeItem limitType)
            { type := limitType, Max := none, Min := none, Default := none }).Max.isSome ||
          ((limitRanges.flatMap fun lr => lr.spec.limits).foldl (stepLimitRangeItem limitType)
            { type := limitType, Max := none, Min := none, Default := none }).Default.isSome then
        some ((limitRanges.flatMap fun lr => lr.spec.limits).foldl (stepLimitRangeItem limitType)
          { type := limitType, Max := none, Min := none, Default := none })
      else none) := by
    simp only [getLimitRangeItem]
    rw [nested_foldl_eq_flat]
  obtain ⟨hMax, hMin, hDefault⟩ := foldl_step_isSome limitType
    (limitRanges.flatMap fun lr => lr.spec.limits)
    { type := limitType, Max := none, Min := none, Default := none }
  constructor
  · rw [hdef]
    by_cases hc : (((limitRanges.flatMap fun lr => lr.spec.limits).foldl
          (stepLimitRangeItem limitType)
          { type := limitType, Max := none, Min := none, Default := none }).Min.isSome ||
        ((limitRanges.flatMap fun lr => lr.spec.limits).foldl (stepLimitRangeItem limitType)
          { type := limitType, Max := none, Min := none, Default := none }).Max.isSome ||
        ((limitRanges.flatMap fun lr => lr.spec.limits).foldl (stepLimitRangeItem limitType)
          { type := limitType, Max := none, Min := none, Default := none }).Default.isSome) = true
    · rw [if_pos hc]
      simp only [hMax, hMin, hDefault, Option.isNone_none, Bool.false_or] at hc
      constructor
      · intro h; cases h
      · intro hq
        exfalso
        unfold qualifyingItems at hq
        rw [hq] at hc
        simp at hc
    · rw [if_neg hc]
      have hall : ((((limitRanges.flatMap fun lr => lr.spec.limits).filter
            (qualifiesLR limitType)).any fun i => i.Min.isSome) = false) ∧
          ((((limitRanges.flatMap fun lr => lr.spec.limits).filter
            (qualifiesLR limitType)).any fun i => i.Max.isSome) = false) ∧
          ((((limitRanges.flatMap fun lr => lr.spec.limits).filter
            (qualifiesLR limitType)).any fun i => i.Default.isSome) = false) := by
        rw [Bool.not_eq_true] at hc
        rw [hMin, hMax, hDefault] at hc
        simp only [Option.isSome_none, Bool.false_or, Bool.or_eq_false_iff] at hc
        exact ⟨hc.1.1, hc.1.2, hc.2⟩
      obtain ⟨hcMin, hcMax, hcDefault⟩ := hall
      simp only [true_iff]
      unfold qualifyingItems
      by_contra hne
      obtain ⟨i, hi⟩ := List.exists_mem_of_ne_nil _ hne
      have hqi := (List.mem_filter.mp hi).2
      unfold qualifiesLR at hqi
      simp only [Bool.and_eq_true] at hqi
      rcases (by simpa using hqi.2 :
          (i.Max.isSome = true ∨ i.Default.isSome = true) ∨ i.Min.isSome = true) with
        (h4 | h4) | h4
      · rw [List.any_eq_false] at hcMax
        exact absurd h4 (by simpa using hcMax i hi)
      · rw [List.any_eq_false] at hcDefault
        exact absurd h4 (by simpa using hcDefault i hi)
      · rw [List.any_eq_false] at hcMin
        exact absurd h4 (by simpa using hcMin i hi)
  · intro item hitem
    rw [hdef] at hitem
    by_cases hc : (((limitRanges.flatMap fun lr => lr.spec.limits).foldl
          (stepLimitRangeItem limitType)
          { type := limitType, Max := none, Min := none, Default := none }).Min.isSome ||
        ((limitRanges.flatMap fun lr => lr.spec.limits).foldl (stepLimitRangeItem limitType)
          { type := limitType, Max := none, Min := none, Default := none }).Max.isSome ||
        ((limitRanges.flatMap fun lr => lr.spec.limits).foldl (stepLimitRangeItem limitType)
          { type := limitType, Max := none, Min := none, Default := none }).Default.isSome) = true
    · rw [if_pos hc] at hitem
      cases hitem
      refine ⟨?_, ?_⟩
      · intro r hr
        have hrr : r = ResourceName.cpu ∨ r = ResourceName.memory := by
          simpa using hr
        constructor
        · rw [foldl_step_Max_at limitType _ _ r hrr]
          simpa [maximaAt, qualifyingItems] using
            foldl_optPick_min ((qualifyingItems limitRanges limitType).filterMap
              fun i => i.Max.bind fun m => m r)
        · rw [foldl_step_Min_at limitType _ _ r hrr]
          simpa [minimaAt, qualifyingItems] using
            foldl_optPick_max ((qualifyingItems limitRanges limitType).filterMap
              fun i => i.Min.bind fun m => m r)
      · rw [foldl_step_Default, foldl_lastWins]
        unfold qualifyingItems
        cases (((limitRanges.flatMap fun lr => lr.spec.limits).filter
            (qualifiesLR limitType)).filterMap fun i => i.Default).getLast? <;> rfl
    · rw [if_neg hc] at hitem
      cases hitem

/-- Demonstration limit-range data: one container item with a cpu max and
a memory default. -/
def c10demoMax : ResourceList := rlOf [(.cpu, 3)]

/-- Demonstration default resource list. -/
def c10demoDefault : ResourceList := rlOf [(.memory, 7)]

/-- Demonstration limit ranges. -/
def c10demoRanges : List LimitRange :=
  [⟨⟨[{ type := .container, Max := some c10demoMax, Min := none
        Default := some c10demoDefault }]⟩⟩]

/-- The combined item computed for the demonstration ranges. -/
def c10demoItem : LimitRangeItem :=
  { type := .container, Max := some c10demoMax, Min := none
    Default := some c10demoDefault }

theorem c10_getLimitRangeItem_combines_witness :
    (∀ r ∈ [ResourceName.cpu, ResourceName.memory],
      (c10demoItem.Max.bind fun m => m r) = (maximaAt c10demoRanges .container r).min? ∧
      (c10demoItem.Min.bind fun m => m r) = (minimaAt c10demoRanges .container r).max?) ∧
    c10demoItem.Default =
      ((qualifyingItems c10demoRanges .container).filterMap fun i => i.Default).getLast? :=
  (c10_getLimitRangeItem_combines c10demoRanges .container).2 c10demoItem rfl

end VPA
